import Mathlib

/-!
# yamlskript: schema validator and code emitters

A shallow embedding of `src/parser/SchemaValidator.js`, `src/parser/schema.js`,
`src/parser/ExpressionParser.js` and `src/parser/JSXParser.js`.

* Parsed YAML data and the schema are JavaScript values (`JSValue`). An object is
  an association list of its own enumerable properties in enumeration order, with
  pairwise distinct keys.
* Property lookup and the `in` operator follow the prototype chain (`findSlot`): an object
  inherits the members of `Object.prototype`, an array those of `Array.prototype` and of
  `Object.prototype` (the string-keyed members of ECMAScript 2023, `objectPrototypeKeys` and
  `arrayPrototypeKeys`), and an object whose prototype was replaced through `__proto__`
  (`JSValue.withProto`) inherits from the value put there. The two prototypes and the functions
  found on them are the values `JSValue.builtin`. A built-in function is opaque apart from its
  `typeof` and what it inherits from `Object.prototype`: its own members and those of
  `Function.prototype` are left out, and so are the members that a primitive inherits from its
  wrapper prototype (the code reads only `type`, `required`, `schema` and index keys from a
  primitive). The type check for `object` and `array` rejects a function, so the validator never
  descends into one.
* A number is an IEEE double (`JSNumber`); the code observes only its `typeof`, its
  truthiness and what `JSON.stringify` writes for it.
* A string is a Lean string, a sequence of Unicode characters. JavaScript counts a character
  outside the Basic Multilingual Plane as two units in `length` and in indexing; the two agree
  on every other string, and the difference can only be seen when a string is used in the
  place of a schema.
* A JavaScript exception is an `Except.error` carrying a `JSError`. `console.warn` has no
  effect on a returned value and is left out.
* Statement, expression and markup nodes handed to the emitters are tagged variants
  (`Stmt`, `Expr`, `MarkupNode`): every node carries the fields that its `case` reads, text
  fields hold strings, and a field tested for truthiness is an `Option` or a `Bool`.
* The built-in `JSON.stringify` is a parameter of the markup emitter (`stringify`, with `none`
  for the result `undefined`); the regular expression of `parseJSX` is modelled by
  `matchDynamic`.
-/

namespace YamlSkript

/-! ## JavaScript values -/

/-- A JavaScript number, an IEEE 754 double: the finite value `mantissa * 2 ^ exponent`, `NaN`,
or an infinity. -/
inductive JSNumber where
  | finite (mantissa exponent : Int)
  | nan
  | infinity (negative : Bool)
deriving Repr

/-- The number written as a natural literal, such as a length. -/
def JSNumber.ofNat (n : Nat) : JSNumber := .finite n 0

instance (n : Nat) : OfNat JSNumber n := ⟨JSNumber.ofNat n⟩

/-- The numbers that convert to `false`: zero and `NaN`. -/
def JSNumber.isFalsy : JSNumber → Bool
  | .finite mantissa _ => mantissa == 0
  | .nan => true
  | .infinity _ => false

/-- The built-in objects that a property lookup on data can return. -/
inductive Builtin where
  /-- A built-in function: a method of a prototype or a constructor. -/
  | function
  /-- The object `Object.prototype`. -/
  | objectPrototype
  /-- The object `Array.prototype`, itself an array of length 0. -/
  | arrayPrototype
deriving Repr

/-- A JavaScript value as produced by the YAML loader or written in `schema.js`, or reached
from such a value through the prototype chain. -/
inductive JSValue where
  | undefined
  | null
  | bool (b : Bool)
  | num (n : JSNumber)
  | str (s : String)
  | arr (xs : List JSValue)
  | obj (kvs : List (String × JSValue))
  /-- A plain object with the own properties `kvs` whose prototype has been replaced by
  `proto`, an object or `null`. -/
  | withProto (kvs : List (String × JSValue)) (proto : JSValue)
  | builtin (b : Builtin)
deriving Repr

/-- Exceptions raised by the embedded code. The first three are the `Error`s thrown by
`SchemaValidator.js`; the others are raised by the runtime itself. -/
inductive JSError where
  /-- The `Error("Unknown type: " + type)` thrown by `checkType`. -/
  | unknownType (type : JSValue)
  /-- The `Error("Missing required field: " + key)`. -/
  | missingRequired (key : String)
  /-- The `Error("Type mismatch for key ...")` with the expected type and `typeof data[key]`. -/
  | typeMismatch (key : String) (expected : JSValue) (actual : String)
  /-- A `TypeError`: the right operand of `in` is not an object. -/
  | inOperatorOnNonObject (key : String)
  /-- A `TypeError`: reading property `prop` of `undefined` or `null`. -/
  | propertyOfNullish (prop : String)
  /-- A `TypeError`: `Object.keys` applied to `undefined` or `null`. -/
  | keysOfNullish
  /-- A `TypeError`: the value of property `prop` is called but is not a function. -/
  | notAFunction (prop : String)
  /-- A `ReferenceError`: the identifier `name` is not defined in the module. -/
  | referenceError (name : String)
  /-- The recursion budget of `validateYAMLAux` ran out (never happens for `validateYAML`). -/
  | fuelExhausted
deriving Repr

mutual
/-- Number of constructors of a value; bounds the recursion depth over a schema. -/
def JSValue.size : JSValue → Nat
  | .arr xs => sizeList xs + 1
  | .obj kvs => sizeFields kvs + 1
  | .withProto kvs proto => sizeFields kvs + proto.size + 1
  | _ => 1
/-- Total size of the elements of an array. -/
def sizeList : List JSValue → Nat
  | [] => 0
  | x :: xs => x.size + sizeList xs + 1
/-- Total size of the property values of an object. -/
def sizeFields : List (String × JSValue) → Nat
  | [] => 0
  | (_, v) :: kvs => v.size + sizeFields kvs + 1
end

/-- The `typeof` operator. -/
def typeof : JSValue → String
  | .undefined => "undefined"
  | .null => "object"
  | .bool _ => "boolean"
  | .num _ => "number"
  | .str _ => "string"
  | .arr _ => "object"
  | .obj _ => "object"
  | .withProto _ _ => "object"
  | .builtin .function => "function"
  | .builtin .objectPrototype => "object"
  | .builtin .arrayPrototype => "object"

/-- Conversion to boolean, as performed by `if`, `&&`, `||` and `!`. -/
def truthy : JSValue → Bool
  | .undefined => false
  | .null => false
  | .bool b => b
  | .num n => !n.isFalsy
  | .str s => s != ""
  | .arr _ => true
  | .obj _ => true
  | .withProto _ _ => true
  | .builtin _ => true

/-- Strict equality `v === s` with a string literal `s`. -/
def strictEqStr (v : JSValue) (s : String) : Bool :=
  match v with
  | .str t => t == s
  | _ => false

/-- The function `Array.isArray`. -/
def isArray : JSValue → Bool
  | .arr _ => true
  | .builtin .arrayPrototype => true
  | _ => false

/-- The array index denoted by a property key: a canonical decimal numeral. -/
def canonicalIndex (key : String) : Option Nat :=
  if key.data.all Char.isDigit && !key.data.isEmpty && (key == "0" || key.data.head? != some '0') then
    some (key.data.foldl (fun n c => 10 * n + (c.toNat - 48)) 0)
  else
    none

/-- Decimal numeral of an index, as listed by `Object.keys` for arrays and strings. -/
def indexKeys (len : Nat) : List String :=
  (List.range len).map toString

/-- The function `Object.keys(v)`: the own enumerable string keys. The members of the built-in
objects are not enumerable. -/
def objectKeys : JSValue → Except JSError (List String)
  | .undefined => throw .keysOfNullish
  | .null => throw .keysOfNullish
  | .bool _ => pure []
  | .num _ => pure []
  | .str s => pure (indexKeys s.length)
  | .arr xs => pure (indexKeys xs.length)
  | .obj kvs => pure (kvs.map Prod.fst)
  | .withProto kvs _ => pure (kvs.map Prod.fst)
  | .builtin _ => pure []

/-- The string keys of the members of `Object.prototype`; `__proto__` is an accessor, the
others are functions. -/
def objectPrototypeKeys : List String :=
  ["constructor", "__defineGetter__", "__defineSetter__", "hasOwnProperty", "__lookupGetter__",
   "__lookupSetter__", "isPrototypeOf", "propertyIsEnumerable", "toString", "valueOf",
   "__proto__", "toLocaleString"]

/-- The string keys of the function-valued members of `Array.prototype` (its own `length` is
handled apart). -/
def arrayPrototypeKeys : List String :=
  ["constructor", "at", "concat", "copyWithin", "fill", "find", "findIndex", "findLast",
   "findLastIndex", "lastIndexOf", "pop", "push", "reverse", "shift", "unshift", "slice", "sort",
   "splice", "includes", "indexOf", "join", "keys", "entries", "values", "forEach", "filter",
   "flat", "flatMap", "map", "every", "some", "reduce", "reduceRight", "toLocaleString",
   "toString", "toReversed", "toSorted", "toSpliced", "with"]

/-- What a property lookup finds for a key: a data property with its value, the accessor
`__proto__` of `Object.prototype`, or nothing. -/
inductive Slot where
  | value (v : JSValue)
  | protoAccessor
  | absent

/-- Whether the lookup found a property. -/
def Slot.isPresent : Slot → Bool
  | .absent => false
  | _ => true

/-- The member of `Object.prototype` with the given key. -/
def objectPrototypeSlot (key : String) : Slot :=
  if key == "__proto__" then .protoAccessor
  else if objectPrototypeKeys.contains key then .value (.builtin .function)
  else .absent

/-- The member with the given key that is found from `Array.prototype` on: its own `length`
and functions, then the members of `Object.prototype`. -/
def arrayPrototypeSlot (key : String) : Slot :=
  if key == "length" then .value (.num 0)
  else if arrayPrototypeKeys.contains key then .value (.builtin .function)
  else objectPrototypeSlot key

/-- The property that the key denotes on a value: an own property first, then the prototype
chain. For `undefined` and `null` a lookup throws (see `getProp`), and as the end of a prototype
chain `null` holds nothing. -/
def findSlot : JSValue → String → Slot
  | .str s, key =>
    match canonicalIndex key with
    | some i =>
      match s.data[i]? with
      | some c => .value (.str (String.singleton c))
      | none => .absent
    | none => if key == "length" then .value (.num (.ofNat s.length)) else .absent
  | .arr xs, key =>
    match canonicalIndex key with
    | some i =>
      match xs[i]? with
      | some x => .value x
      | none => arrayPrototypeSlot key
    | none => if key == "length" then .value (.num (.ofNat xs.length)) else arrayPrototypeSlot key
  | .obj kvs, key =>
    match kvs.lookup key with
    | some v => .value v
    | none => objectPrototypeSlot key
  | .withProto kvs proto, key =>
    match kvs.lookup key with
    | some v => .value v
    | none => findSlot proto key
  | .builtin .objectPrototype, key => objectPrototypeSlot key
  | .builtin .arrayPrototype, key => arrayPrototypeSlot key
  | .builtin .function, key => objectPrototypeSlot key
  | _, _ => .absent

/-- The prototype of an object, which is what the accessor `__proto__` returns. -/
def protoOf : JSValue → JSValue
  | .obj _ => .builtin .objectPrototype
  | .arr _ => .builtin .arrayPrototype
  | .withProto _ proto => proto
  | .builtin .arrayPrototype => .builtin .objectPrototype
  | .builtin .function => .builtin .function
  | _ => .null

/-- The operator `key in v`: true for own and for inherited properties; a `TypeError` when `v`
is not an object. -/
def hasProperty (key : String) (v : JSValue) : Except JSError Bool :=
  match v with
  | .arr _ => pure (findSlot v key).isPresent
  | .obj _ => pure (findSlot v key).isPresent
  | .withProto _ _ => pure (findSlot v key).isPresent
  | .builtin _ => pure (findSlot v key).isPresent
  | _ => throw (.inOperatorOnNonObject key)

/-- Property read `v[key]` (also written `v.key`). -/
def getProp (v : JSValue) (key : String) : Except JSError JSValue :=
  match v with
  | .undefined => throw (.propertyOfNullish key)
  | .null => throw (.propertyOfNullish key)
  | _ =>
    match findSlot v key with
    | .value w => pure w
    | .protoAccessor => pure (protoOf v)
    | .absent => pure .undefined

/-- The loop `xs.forEach(f)` where `f` may throw: the first exception aborts the loop. -/
def forEach {α : Type} (xs : List α) (f : α → Except JSError Unit) : Except JSError Unit :=
  match xs with
  | [] => pure ()
  | x :: rest => do
    f x
    forEach rest f

/-! ## `SchemaValidator.js` -/

/-- The method `SchemaValidator.checkType(value, type)`. -/
def checkType (value type : JSValue) : Except JSError Bool :=
  match type with
  | .str "string" => pure (typeof value == "string")
  | .str "number" => pure (typeof value == "number")
  | .str "boolean" => pure (typeof value == "boolean")
  | .str "array" => pure (isArray value)
  | .str "object" =>
    pure (typeof value == "object" && !isArray value &&
      (match value with
       | .null => false
       | _ => true))
  | .str "any" => pure true
  | _ => throw (.unknownType type)

/-- The `data[key].forEach(...)` call of `validateYAML`: `target` is `data[key]`. The call is
reached when `key in data` is false, so that `target` is `undefined`, or after `target` has
passed `Array.isArray`; `Array.prototype` has no elements. On any other value the call is
the `TypeError` of a missing method. -/
def forEachItem (target : JSValue) (f : JSValue → Except JSError Unit) : Except JSError Unit :=
  match target with
  | .arr items => forEach items f
  | .builtin .arrayPrototype => pure ()
  | .undefined => throw (.propertyOfNullish "forEach")
  | .null => throw (.propertyOfNullish "forEach")
  | _ => throw (.notAFunction "forEach")

/-- The statement `if (required && !(key in data)) throw new Error("Missing required field")`,
where `required` is the value of `schema[key].required`. -/
def checkRequired (required : JSValue) (key : String) (data : JSValue) : Except JSError Unit := do
  if truthy required then
    if !(← hasProperty key data) then
      throw (.missingRequired key)

/-- The statement `if (key in data && !this.checkType(data[key], expectedType)) throw new
Error("Type mismatch")`. -/
def checkPresent (expectedType : JSValue) (key : String) (data : JSValue) :
    Except JSError Unit := do
  if (← hasProperty key data) then
    let value ← getProp data key
    if !(← checkType value expectedType) then
      throw (.typeMismatch key expectedType (typeof value))

/-- The statement `if (schema[key].schema && (expectedType === 'object' || expectedType ===
'array')) ...` that validates the nested schema; `nested` is the value of `schema[key].schema`
and `recur` stands for the recursive `this.validateYAML`. -/
def validateNested (recur : JSValue → JSValue → Except JSError Unit)
    (nested expectedType : JSValue) (key : String) (data : JSValue) : Except JSError Unit := do
  if truthy nested && (strictEqStr expectedType "object" || strictEqStr expectedType "array") then
    if strictEqStr expectedType "object" then
      recur nested (← getProp data key)
    else if strictEqStr expectedType "array" then
      forEachItem (← getProp data key) (fun item => recur nested item)

/-- The callback that `validateYAML` runs for each key of the schema. -/
def validateKey (recur : JSValue → JSValue → Except JSError Unit) (schema data : JSValue)
    (key : String) : Except JSError Unit := do
  let entry ← getProp schema key
  let expectedType ← getProp entry "type"
  let required ← getProp entry "required"
  checkRequired required key data
  checkPresent expectedType key data
  let nested ← getProp entry "schema"
  validateNested recur nested expectedType key data

/-- The method `validateYAML` with an explicit recursion budget. -/
def validateYAMLAux : Nat → JSValue → JSValue → Except JSError Unit
  | 0, _, _ => throw .fuelExhausted
  | fuel + 1, schema, data => do
    let keys ← objectKeys schema
    forEach keys (validateKey (validateYAMLAux fuel) schema data)

/-- The method `SchemaValidator.validateYAML(schema, data)`: `ok ()` is the returned `true`. Each recursive
call descends into a proper part of the schema, so the size of the schema is a sufficient
budget (`validateYAML_unfold`). -/
def validateYAML (schema data : JSValue) : Except JSError Unit :=
  validateYAMLAux schema.size schema data

/-- The document schema of `src/parser/schema.js`. -/
def schema : JSValue :=
  .obj [
    ("modules", .obj [
      ("type", .str "array"),
      ("required", .bool false),
      ("schema", .obj [
        ("type", .str "object"),
        ("required", .bool true),
        ("schema", .obj [
          ("type", .obj [("type", .str "string"), ("required", .bool true)]),
          ("alias", .obj [("type", .str "string"), ("required", .bool true)]),
          ("path", .obj [("type", .str "string"), ("required", .bool true)])])])]),
    ("css", .obj [
      ("type", .str "array"),
      ("required", .bool false),
      ("schema", .obj [("type", .str "string")])]),
    ("libraries", .obj [
      ("type", .str "array"),
      ("required", .bool false),
      ("schema", .obj [("type", .str "string")])]),
    ("variables", .obj [("type", .str "object"), ("required", .bool false)]),
    ("objects", .obj [("type", .str "object"), ("required", .bool false)]),
    ("arrays", .obj [("type", .str "object"), ("required", .bool false)]),
    ("classes", .obj [
      ("type", .str "array"),
      ("required", .bool false),
      ("schema", .obj [
        ("type", .str "object"),
        ("required", .bool true),
        ("schema", .obj [
          ("name", .obj [("type", .str "string"), ("required", .bool true)]),
          ("extends", .obj [("type", .str "string"), ("required", .bool false)]),
          ("constructor", .obj [
            ("type", .str "object"),
            ("required", .bool false),
            ("schema", .obj [
              ("parameters", .obj [
                ("type", .str "array"),
                ("required", .bool true),
                ("schema", .obj [("type", .str "string")])]),
              ("body", .obj [
                ("type", .str "array"),
                ("required", .bool true),
                ("schema", .obj [("type", .str "object")])])])]),
          ("methods", .obj [
            ("type", .str "array"),
            ("required", .bool false),
            ("schema", .obj [
              ("type", .str "object"),
              ("required", .bool true),
              ("schema", .obj [
                ("name", .obj [("type", .str "string"), ("required", .bool true)]),
                ("parameters", .obj [
                  ("type", .str "array"),
                  ("required", .bool true),
                  ("schema", .obj [("type", .str "string")])]),
                ("body", .obj [
                  ("type", .str "array"),
                  ("required", .bool true),
                  ("schema", .obj [("type", .str "object")])])])])])])])]),
    ("functions", .obj [
      ("type", .str "array"),
      ("required", .bool false),
      ("schema", .obj [
        ("type", .str "object"),
        ("required", .bool true),
        ("schema", .obj [
          ("name", .obj [("type", .str "string"), ("required", .bool true)]),
          ("parameters", .obj [
            ("type", .str "array"),
            ("required", .bool true),
            ("schema", .obj [("type", .str "string")])]),
          ("body", .obj [
            ("type", .str "array"),
            ("required", .bool true),
            ("schema", .obj [("type", .str "object")])]),
          ("async", .obj [("type", .str "boolean"), ("required", .bool false)])])])]),
    ("conditions", .obj [
      ("type", .str "array"),
      ("required", .bool false),
      ("schema", .obj [
        ("type", .str "object"),
        ("required", .bool true),
        ("schema", .obj [
          ("if", .obj [("type", .str "string"), ("required", .bool false)]),
          ("execute", .obj [
            ("type", .str "array"),
            ("required", .bool false),
            ("schema", .obj [("type", .str "object")])]),
          ("else", .obj [
            ("type", .str "object"),
            ("required", .bool false),
            ("schema", .obj [
              ("execute", .obj [
                ("type", .str "array"),
                ("required", .bool true),
                ("schema", .obj [("type", .str "object")])])])])])])]),
    ("loops", .obj [
      ("type", .str "object"),
      ("required", .bool false),
      ("schema", .obj [
        ("for", .obj [
          ("type", .str "object"),
          ("required", .bool false),
          ("schema", .obj [
            ("initializer", .obj [("type", .str "string"), ("required", .bool true)]),
            ("condition", .obj [("type", .str "string"), ("required", .bool true)]),
            ("increment", .obj [("type", .str "string"), ("required", .bool true)]),
            ("body", .obj [
              ("type", .str "array"),
              ("required", .bool true),
              ("schema", .obj [("type", .str "object")])])])]),
        ("while", .obj [
          ("type", .str "object"),
          ("required", .bool false),
          ("schema", .obj [
            ("condition", .obj [("type", .str "string"), ("required", .bool true)]),
            ("body", .obj [
              ("type", .str "array"),
              ("required", .bool true),
              ("schema", .obj [("type", .str "object")])])])]),
        ("doWhile", .obj [
          ("type", .str "object"),
          ("required", .bool false),
          ("schema", .obj [
            ("condition", .obj [("type", .str "string"), ("required", .bool true)]),
            ("body", .obj [
              ("type", .str "array"),
              ("required", .bool true),
              ("schema", .obj [("type", .str "object")])])])])])]),
    ("exceptions", .obj [
      ("type", .str "array"),
      ("required", .bool false),
      ("schema", .obj [
        ("type", .str "object"),
        ("required", .bool true),
        ("schema", .obj [
          ("try", .obj [
            ("type", .str "object"),
            ("required", .bool true),
            ("schema", .obj [
              ("body", .obj [
                ("type", .str "array"),
                ("required", .bool true),
                ("schema", .obj [("type", .str "object")])])])]),
          ("catch", .obj [
            ("type", .str "object"),
            ("required", .bool true),
            ("schema", .obj [
              ("parameter", .obj [("type", .str "string"), ("required", .bool true)]),
              ("body", .obj [
                ("type", .str "array"),
                ("required", .bool true),
                ("schema", .obj [("type", .str "object")])])])])])])]),
    ("components", .obj [
      ("type", .str "array"),
      ("required", .bool false),
      ("schema", .obj [
        ("type", .str "object"),
        ("required", .bool true),
        ("schema", .obj [
          ("type", .obj [("type", .str "string"), ("required", .bool true)]),
          ("name", .obj [("type", .str "string"), ("required", .bool true)]),
          ("hooks", .obj [
            ("type", .str "array"),
            ("required", .bool false),
            ("schema", .obj [
              ("type", .str "object"),
              ("required", .bool true),
              ("schema", .obj [
                ("name", .obj [("type", .str "string"), ("required", .bool true)]),
                ("params", .obj [
                  ("type", .str "array"),
                  ("required", .bool true),
                  ("schema", .obj [("type", .str "string")])]),
                ("initial", .obj [("type", .str "any"), ("required", .bool false)]),
                ("body", .obj [
                  ("type", .str "array"),
                  ("required", .bool false),
                  ("schema", .obj [("type", .str "object")])]),
                ("dependencies", .obj [
                  ("type", .str "array"),
                  ("required", .bool false),
                  ("schema", .obj [("type", .str "string")])])])])]),
          ("functions", .obj [
            ("type", .str "array"),
            ("required", .bool false),
            ("schema", .obj [
              ("type", .str "object"),
              ("required", .bool true),
              ("schema", .obj [
                ("name", .obj [("type", .str "string"), ("required", .bool true)]),
                ("parameters", .obj [
                  ("type", .str "array"),
                  ("required", .bool true),
                  ("schema", .obj [("type", .str "string")])]),
                ("body", .obj [
                  ("type", .str "array"),
                  ("required", .bool true),
                  ("schema", .obj [("type", .str "object")])]),
                ("async", .obj [("type", .str "boolean"), ("required", .bool false)])])])]),
          ("jsx", .obj [
            ("type", .str "array"),
            ("required", .bool true),
            ("schema", .obj [("type", .str "object")])]),
          ("state", .obj [("type", .str "object"), ("required", .bool false)]),
          ("methods", .obj [
            ("type", .str "array"),
            ("required", .bool false),
            ("schema", .obj [
              ("type", .str "object"),
              ("required", .bool true),
              ("schema", .obj [
                ("name", .obj [("type", .str "string"), ("required", .bool true)]),
                ("parameters", .obj [
                  ("type", .str "array"),
                  ("required", .bool true),
                  ("schema", .obj [("type", .str "string")])]),
                ("body", .obj [
                  ("type", .str "array"),
                  ("required", .bool true),
                  ("schema", .obj [("type", .str "object")])])])])])])])])]

/-- The shipped schema restricted to the single section `name`. -/
def sectionSchema (name : String) : JSValue :=
  match schema with
  | .obj entries => .obj (entries.filter (fun entry => entry.1 == name))
  | _ => .obj []

/-! ## `ExpressionParser.js` -/

set_option maxHeartbeats 4000000 in
mutual
/-- Expression nodes: one constructor per `case` label of `parseExpression`, carrying the
fields which that case reads. `other` is a node whose `type` is none of the labels. -/
inductive Expr where
  | identifier (name : String)
  | callExpression (callee : Expr) (arguments : List Expr)
  | memberExpression (object property : Expr)
  | awaitExpression (argument : Expr)
  | binaryExpression (left : Expr) (operator : String) (right : Expr)
  | logicalExpression (left : Expr) (operator : String) (right : Expr)
  | arrowFunctionExpression (params : List Param) (body : List Stmt)
  | literal (raw : String)
  | arrayExpression (elements : List Expr)
  | objectExpression (properties : List (Expr × Expr))
  | assignmentExpression (left : Expr) (operator : String) (right : Expr)
  | unaryExpression (operator : String) (pfx : Bool) (argument : Expr)
  | updateExpression (operator : String) (pfx : Bool) (argument : Expr)
  | conditionalExpression (test consequent alternate : Expr)
  | newExpression (callee : Expr) (arguments : List Expr)
  | sequenceExpression (expressions : List Expr)
  | templateLiteral (quasis : List String) (expressions : List Expr)
  | taggedTemplateExpression (tag quasi : Expr)
  | yieldExpression (delegate : Bool) (argument : Expr)
  | classExpression (id : Option String) (superClass : Option Expr) (body : List Expr)
  | functionExpression (id : Option String) (params : List Expr) (body : List Stmt)
  | thisExpression
  | super
  | metaProperty (metaName property : String)
  | importExpression (source : Expr)
  | chainExpression (expression : Expr)
  | jsxElement
  | jsxFragment
  | jsxExpressionContainer (expression : Expr)
  | jsxText (value : String)
  | jsxOpeningElement (name : Expr) (attributes : List Expr)
  | jsxClosingElement (name : Expr)
  | jsxAttribute (name : String) (value : Expr)
  | jsxSpreadAttribute (argument : Expr)
  | jsxNamespacedName (ns name : String)
  | jsxMemberExpression (object property : Expr)
  | objectPattern (properties : List Expr)
  | arrayPattern (elements : List Expr)
  | restElement (argument : Expr)
  | assignmentPattern (left right : Expr)
  | spreadElement (argument : Expr)
  | property (key value : Expr)
  | methodDefinition (kind : String) (key : Expr) (params : List Expr) (body : List Stmt)
  | classProperty (isStatic : Bool) (key value : Expr)
  | importDeclaration (specifiers : List Expr) (source : String)
  | importSpecifier (imported localName : String)
  | importDefaultSpecifier (localName : String)
  | importNamespaceSpecifier (localName : String)
  | exportNamedDeclaration (specifiers : List Expr) (source : Option String)
  | exportDefaultDeclaration (declaration : Expr)
  | exportAllDeclaration (source : String)
  | variableDeclaration (kind : String) (declarations : List Expr)
  | variableDeclarator (id init : Expr)
  | functionDeclaration (id : String) (params : List Expr) (body : List Stmt)
  | classDeclaration (id : String) (superClass : Option Expr) (body : List Expr)
  | exportSpecifier (exported localName : String)
  | objectMethod (kind : String) (key : Expr) (params : List Expr) (body : List Stmt)
  | objectProperty (key value : Expr)
  | classMethod (kind : String) (key : Expr) (params : List Expr) (body : List Stmt)
  | privateName (id : String)
  | decorator (expression : Expr)
  | doExpression (body : List Stmt)
  | parenthesizedExpression (expression : Expr)
  | other (type : String)
/-- An element of the `params` array of an arrow function, which the code joins without
emitting it: a string, or an expression node. -/
inductive Param where
  | text (s : String)
  | node (e : Expr)
/-- Statement nodes: one constructor per `case` label of `parseBody`, carrying the fields
which that case reads. `other` is a node whose `type` is none of the labels. -/
inductive Stmt where
  | variableDeclaration (kind : String) (declarations : List (String × Option Expr))
  | returnStatement (argument : Expr)
  | expressionStatement (expression : Expr)
  | ifStatement (test : String) (consequent alternate : Option (List Stmt))
  | forStatement (init test update : String) (body : List Stmt)
  | whileStatement (test : String) (body : List Stmt)
  | doWhileStatement (body : List Stmt) (test : String)
  | tryStatement (block : List Stmt) (param : String) (handler : List Stmt)
  | blockStatement (body : List Stmt)
  | breakStatement
  | continueStatement
  | debuggerStatement
  | emptyStatement
  | labeledStatement (label : String) (body : Stmt)
  | switchStatement (discriminant : Expr) (cases : List (Expr × List Stmt))
  | throwStatement (argument : Expr)
  | withStatement (object : Expr) (body : Stmt)
  | functionDeclaration (id : String) (params : List Expr) (body : List Stmt)
  | classDeclaration (id : String) (superClass : Option Expr) (body : List Expr)
  | importDeclaration (specifiers : List Expr) (source : String)
  | exportNamedDeclaration (specifiers : List Expr) (source : Option String)
  | exportDefaultDeclaration (declaration : Expr)
  | exportAllDeclaration (source : String)
  | other (type : String)
end

/-- The value of `statement.type`. -/
def Stmt.type : Stmt → String
  | .variableDeclaration .. => "variableDeclaration"
  | .returnStatement .. => "returnStatement"
  | .expressionStatement .. => "expressionStatement"
  | .ifStatement .. => "ifStatement"
  | .forStatement .. => "forStatement"
  | .whileStatement .. => "whileStatement"
  | .doWhileStatement .. => "doWhileStatement"
  | .tryStatement .. => "tryStatement"
  | .blockStatement .. => "blockStatement"
  | .breakStatement => "breakStatement"
  | .continueStatement => "continueStatement"
  | .debuggerStatement => "debuggerStatement"
  | .emptyStatement => "emptyStatement"
  | .labeledStatement .. => "labeledStatement"
  | .switchStatement .. => "switchStatement"
  | .throwStatement .. => "throwStatement"
  | .withStatement .. => "withStatement"
  | .functionDeclaration .. => "functionDeclaration"
  | .classDeclaration .. => "classDeclaration"
  | .importDeclaration .. => "importDeclaration"
  | .exportNamedDeclaration .. => "exportNamedDeclaration"
  | .exportDefaultDeclaration .. => "exportDefaultDeclaration"
  | .exportAllDeclaration .. => "exportAllDeclaration"
  | .other type => type

/-- The `case` labels of the `switch` in `parseBody`. -/
def statementCases : List String :=
  ["variableDeclaration", "returnStatement", "expressionStatement", "ifStatement",
   "forStatement", "whileStatement", "doWhileStatement", "tryStatement", "blockStatement",
   "breakStatement", "continueStatement", "debuggerStatement", "emptyStatement",
   "labeledStatement", "switchStatement", "throwStatement", "withStatement",
   "functionDeclaration", "classDeclaration", "importDeclaration", "exportNamedDeclaration",
   "exportDefaultDeclaration", "exportAllDeclaration"]

/-- The method `String.prototype.repeat`. -/
def strRepeat (s : String) : Nat → String
  | 0 => ""
  | n + 1 => s ++ strRepeat s n

/-- The indentation `'    '.repeat(level)`: four spaces per level. -/
def indentation (level : Nat) : String :=
  strRepeat "    " level

/-- The method `Array.prototype.join` on an array of strings. -/
def join (xs : List String) (sep : String) : String :=
  sep.intercalate xs

/-- The text that `join` or a template literal gives for an element of `params`. -/
def Param.toText : Param → String
  | .text s => s
  | .node _ => "[object Object]"

set_option maxHeartbeats 4000000 in
mutual
/-- The function `parseBody(body, level)`: the text of each statement, in order. -/
def parseBody : List Stmt → Nat → Except JSError String
  | [], _ => pure ""
  | statement :: rest, level => do
    let code ← parseStatement statement level
    let tail ← parseBody rest level
    pure (code ++ tail)
/-- The body of the `forEach` callback of `parseBody`: the text added to `code` for one
statement. A call `parseBody([s], level)` of the source is `parseStatement s level`. -/
def parseStatement : Stmt → Nat → Except JSError String
  | .variableDeclaration kind declarations, level => do
    let declarations ← parseDeclarators declarations
    pure (indentation level ++ kind ++ " " ++ join declarations ", " ++ ";\n")
  | .returnStatement argument, level => do
    pure (indentation level ++ "return " ++ (← parseExpression argument) ++ ";\n")
  | .expressionStatement expression, level => do
    pure (indentation level ++ (← parseExpression expression) ++ ";\n")
  | .ifStatement test consequent alternate, level => do
    let code := indentation level ++ "if (" ++ test ++ ") \x7b\n"
    let code ← match consequent with
      | some body => do pure (code ++ (← parseBody body (level + 1)))
      | none => pure code
    let code := code ++ indentation level ++ "\x7d\n"
    match alternate with
    | some body => do
      let code := code ++ indentation level ++ "else \x7b\n"
      let code := code ++ (← parseBody body (level + 1))
      pure (code ++ indentation level ++ "\x7d\n")
    | none => pure code
  | .forStatement init test update body, level => do
    let code := indentation level ++ "for (" ++ init ++ "; " ++ test ++ "; " ++ update ++ ") \x7b\n"
    let code := code ++ (← parseBody body (level + 1))
    pure (code ++ indentation level ++ "\x7d\n")
  | .whileStatement test body, level => do
    let code := indentation level ++ "while (" ++ test ++ ") \x7b\n"
    let code := code ++ (← parseBody body (level + 1))
    pure (code ++ indentation level ++ "\x7d\n")
  | .doWhileStatement body test, level => do
    let code := indentation level ++ "do \x7b\n"
    let code := code ++ (← parseBody body (level + 1))
    pure (code ++ indentation level ++ "\x7d while (" ++ test ++ ");\n")
  | .tryStatement block param handler, level => do
    let code := indentation level ++ "try \x7b\n"
    let code := code ++ (← parseBody block (level + 1))
    let code := code ++ indentation level ++ "\x7d catch (" ++ param ++ ") \x7b\n"
    let code := code ++ (← parseBody handler (level + 1))
    pure (code ++ indentation level ++ "\x7d\n")
  | .blockStatement body, level => do
    let code := indentation level ++ "\x7b\n"
    let code := code ++ (← parseBody body (level + 1))
    pure (code ++ indentation level ++ "\x7d\n")
  | .breakStatement, level => pure (indentation level ++ "break;\n")
  | .continueStatement, level => pure (indentation level ++ "continue;\n")
  | .debuggerStatement, level => pure (indentation level ++ "debugger;\n")
  | .emptyStatement, level => pure (indentation level ++ ";\n")
  | .labeledStatement label body, level => do
    let code := indentation level ++ label ++ ":\n"
    pure (code ++ (← parseStatement body level))
  | .switchStatement discriminant cases, level => do
    let code := indentation level ++ "switch (" ++ (← parseExpression discriminant) ++ ") \x7b\n"
    let code := code ++ (← parseCases cases level)
    pure (code ++ indentation level ++ "\x7d\n")
  | .throwStatement argument, level => do
    pure (indentation level ++ "throw " ++ (← parseExpression argument) ++ ";\n")
  | .withStatement object body, level => do
    let code := indentation level ++ "with (" ++ (← parseExpression object) ++ ") \x7b\n"
    let code := code ++ (← parseStatement body (level + 1))
    pure (code ++ indentation level ++ "\x7d\n")
  | .functionDeclaration id params body, level => do
    let funcParams := join (← parseExpressions params) ", "
    let code := indentation level ++ "function " ++ id ++ "(" ++ funcParams ++ ") \x7b\n"
    let code := code ++ (← parseBody body (level + 1))
    pure (code ++ indentation level ++ "\x7d\n")
  | .classDeclaration id superClass body, level => do
    let classBody := join (← parseExpressions body) "\n"
    let heritage ← match superClass with
      | some superClass => do pure ("extends " ++ (← parseExpression superClass))
      | none => pure ""
    pure (indentation level ++ "class " ++ id ++ " " ++ heritage ++ " \x7b\n" ++ classBody ++ "\n"
      ++ indentation level ++ "\x7d\n")
  | .importDeclaration specifiers source, level => do
    let importSpecifiers := join (← parseExpressions specifiers) ", "
    pure (indentation level ++ "import " ++ importSpecifiers ++ " from \x27" ++ source ++ "\x27;\n")
  | .exportNamedDeclaration specifiers source, level => do
    let exportSpecifiers := join (← parseExpressions specifiers) ", "
    let origin := match source with
      | some source => " from \x27" ++ source ++ "\x27"
      | none => ""
    pure (indentation level ++ "export \x7b " ++ exportSpecifiers ++ " \x7d" ++ origin ++ ";\n")
  | .exportDefaultDeclaration declaration, level => do
    pure (indentation level ++ "export default " ++ (← parseExpression declaration) ++ ";\n")
  | .exportAllDeclaration source, level =>
    pure (indentation level ++ "export * from \x27" ++ source ++ "\x27;\n")
  | .other _, _ => pure ""
/-- The `statement.declarations.map(...)` of a `variableDeclaration` statement. -/
def parseDeclarators : List (String × Option Expr) → Except JSError (List String)
  | [] => pure []
  | (id, none) :: rest => do
    let tail ← parseDeclarators rest
    pure ((id ++ "") :: tail)
  | (id, some init) :: rest => do
    let init := " = " ++ (← parseExpression init)
    let tail ← parseDeclarators rest
    pure ((id ++ init) :: tail)
/-- The `statement.cases.forEach(...)` of a `switchStatement`. -/
def parseCases : List (Expr × List Stmt) → Nat → Except JSError String
  | [], _ => pure ""
  | (test, consequent) :: rest, level => do
    let code := indentation level ++ "case " ++ (← parseExpression test) ++ ":\n"
    let code := code ++ (← parseBody consequent (level + 1))
    let tail ← parseCases rest level
    pure (code ++ tail)
/-- The function `parseExpression(expr)`. -/
def parseExpression : Expr → Except JSError String
  | .identifier name => pure name
  | .callExpression callee arguments => do
    let args := join (← parseExpressions arguments) ", "
    pure ((← parseExpression callee) ++ "(" ++ args ++ ")")
  | .memberExpression object property => do
    pure ((← parseExpression object) ++ "." ++ (← parseExpression property))
  | .awaitExpression argument => do
    pure ("await " ++ (← parseExpression argument))
  | .binaryExpression left operator right => do
    pure ((← parseExpression left) ++ " " ++ operator ++ " " ++ (← parseExpression right))
  | .logicalExpression left operator right => do
    pure ((← parseExpression left) ++ " " ++ operator ++ " " ++ (← parseExpression right))
  | .arrowFunctionExpression params body => do
    let params := join (params.map Param.toText) ", "
    pure ("(" ++ params ++ ") => \x7b\n" ++ (← parseBody body 2) ++ "    \x7d\n")
  | .literal raw => pure raw
  | .arrayExpression elements => do
    let elements := join (← parseExpressions elements) ", "
    pure ("[" ++ elements ++ "]")
  | .objectExpression properties => do
    let properties := join (← parseProperties properties) ", "
    pure ("\x7b" ++ properties ++ "\x7d")
  | .assignmentExpression left operator right => do
    pure ((← parseExpression left) ++ " " ++ operator ++ " " ++ (← parseExpression right))
  | .unaryExpression operator _ argument => do
    pure (operator ++ (← parseExpression argument))
  | .updateExpression operator pfx argument => do
    if pfx then
      pure (operator ++ (← parseExpression argument))
    else
      pure ((← parseExpression argument) ++ operator)
  | .conditionalExpression test consequent alternate => do
    pure ((← parseExpression test) ++ " ? " ++ (← parseExpression consequent) ++ " : "
      ++ (← parseExpression alternate))
  | .newExpression callee arguments => do
    let newArgs := join (← parseExpressions arguments) ", "
    pure ("new " ++ (← parseExpression callee) ++ "(" ++ newArgs ++ ")")
  | .sequenceExpression expressions => do
    let expressions := join (← parseExpressions expressions) ", "
    pure ("(" ++ expressions ++ ")")
  | .templateLiteral quasis expressions => do
    let quasis := join quasis "$\x7b\x7d"
    let expressionsInTemplate := join (← parseExpressions expressions) "\x7d$\x7b"
    pure ("`" ++ quasis ++ expressionsInTemplate ++ "`")
  | .taggedTemplateExpression tag quasi => do
    pure ((← parseExpression tag) ++ "`" ++ (← parseExpression quasi) ++ "`")
  | .yieldExpression delegate argument => do
    pure ("yield " ++ (if delegate then "*" else "") ++ (← parseExpression argument))
  | .classExpression id superClass body => do
    let classBody := join (← parseExpressions body) "\n"
    let heritage ← match superClass with
      | some superClass => do pure ("extends " ++ (← parseExpression superClass))
      | none => pure ""
    pure ("class " ++ id.getD "" ++ " " ++ heritage ++ " \x7b\n" ++ classBody ++ "\n\x7d")
  | .functionExpression id params body => do
    let funcParams := join (← parseExpressions params) ", "
    pure ("function " ++ id.getD "" ++ "(" ++ funcParams ++ ") \x7b\n" ++ (← parseBody body 2)
      ++ "    \x7d\n")
  | .thisExpression => pure "this"
  | .super => pure "super"
  | .metaProperty metaName property => pure (metaName ++ "." ++ property)
  | .importExpression source => do
    pure ("import(" ++ (← parseExpression source) ++ ")")
  | .chainExpression expression => do
    pure ("" ++ (← parseExpression expression))
  | .jsxElement => throw (.referenceError "parseJSX")
  | .jsxFragment => throw (.referenceError "parseJSXFragment")
  | .jsxExpressionContainer expression => do
    pure ("\x7b" ++ (← parseExpression expression) ++ "\x7d")
  | .jsxText value => pure value
  | .jsxOpeningElement name attributes => do
    let name ← parseExpression name
    let attributes ← parseExpressions attributes
    pure ("<" ++ name ++ join (attributes.map (fun attr => " " ++ attr)) "" ++ ">")
  | .jsxClosingElement name => do
    pure ("</" ++ (← parseExpression name) ++ ">")
  | .jsxAttribute name value => do
    pure (name ++ "=" ++ (← parseExpression value))
  | .jsxSpreadAttribute argument => do
    pure ("\x7b..." ++ (← parseExpression argument) ++ "\x7d")
  | .jsxNamespacedName ns name => pure (ns ++ ":" ++ name)
  | .jsxMemberExpression object property => do
    pure ((← parseExpression object) ++ "." ++ (← parseExpression property))
  | .objectPattern properties => do
    let objectPatternProperties := join (← parseExpressions properties) ", "
    pure ("\x7b" ++ objectPatternProperties ++ "\x7d")
  | .arrayPattern elements => do
    let arrayPatternElements := join (← parseExpressions elements) ", "
    pure ("[" ++ arrayPatternElements ++ "]")
  | .restElement argument => do
    pure ("..." ++ (← parseExpression argument))
  | .assignmentPattern left right => do
    pure ((← parseExpression left) ++ " = " ++ (← parseExpression right))
  | .spreadElement argument => do
    pure ("..." ++ (← parseExpression argument))
  | .property key value => do
    pure ((← parseExpression key) ++ ": " ++ (← parseExpression value))
  | .methodDefinition kind key params body => do
    let methodParams := join (← parseExpressions params) ", "
    pure (kind ++ " " ++ (← parseExpression key) ++ "(" ++ methodParams ++ ") \x7b\n"
      ++ (← parseBody body 2) ++ "    \x7d\n")
  | .classProperty isStatic key value => do
    pure ((if isStatic then "static " else "") ++ (← parseExpression key) ++ " = "
      ++ (← parseExpression value))
  | .importDeclaration specifiers source => do
    let importSpecifiers := join (← parseExpressions specifiers) ", "
    pure ("import " ++ importSpecifiers ++ " from \x27" ++ source ++ "\x27")
  | .importSpecifier imported localName =>
    pure (if imported == localName then localName else imported ++ " as " ++ localName)
  | .importDefaultSpecifier localName => pure localName
  | .importNamespaceSpecifier localName => pure ("* as " ++ localName)
  | .exportNamedDeclaration specifiers source => do
    let exportSpecifiers := join (← parseExpressions specifiers) ", "
    let origin := match source with
      | some source => " from \x27" ++ source ++ "\x27"
      | none => ""
    pure ("export \x7b " ++ exportSpecifiers ++ " \x7d" ++ origin)
  | .exportDefaultDeclaration declaration => do
    pure ("export default " ++ (← parseExpression declaration))
  | .exportAllDeclaration source => pure ("export * from \x27" ++ source ++ "\x27")
  | .variableDeclaration kind declarations => do
    let varDeclarations := join (← parseExpressions declarations) ", "
    pure (kind ++ " " ++ varDeclarations)
  | .variableDeclarator id init => do
    pure ((← parseExpression id) ++ " = " ++ (← parseExpression init))
  | .functionDeclaration id params body => do
    let funcDeclParams := join (← parseExpressions params) ", "
    pure ("function " ++ id ++ "(" ++ funcDeclParams ++ ") \x7b\n" ++ (← parseBody body 2)
      ++ "    \x7d\n")
  | .classDeclaration id superClass body => do
    let classDeclBody := join (← parseExpressions body) "\n"
    let heritage ← match superClass with
      | some superClass => do pure ("extends " ++ (← parseExpression superClass))
      | none => pure ""
    pure ("class " ++ id ++ " " ++ heritage ++ " \x7b\n" ++ classDeclBody ++ "\n\x7d")
  | .exportSpecifier exported localName =>
    pure (if exported == localName then localName else localName ++ " as " ++ exported)
  | .objectMethod kind key params body => do
    let objMethodParams := join (← parseExpressions params) ", "
    pure (kind ++ " " ++ (← parseExpression key) ++ "(" ++ objMethodParams ++ ") \x7b\n"
      ++ (← parseBody body 2) ++ "    \x7d\n")
  | .objectProperty key value => do
    pure ((← parseExpression key) ++ ": " ++ (← parseExpression value))
  | .classMethod kind key params body => do
    let classMethodParams := join (← parseExpressions params) ", "
    pure (kind ++ " " ++ (← parseExpression key) ++ "(" ++ classMethodParams ++ ") \x7b\n"
      ++ (← parseBody body 2) ++ "    \x7d\n")
  | .privateName id => pure ("#" ++ id)
  | .decorator expression => do
    pure ("@" ++ (← parseExpression expression))
  | .doExpression body => do
    pure ("do \x7b\n" ++ (← parseBody body 2) ++ "    \x7d\n")
  | .parenthesizedExpression expression => do
    pure ("(" ++ (← parseExpression expression) ++ ")")
  | .other _ => pure ""
/-- The `xs.map(x => parseExpression(x))` of the source: the first exception aborts. -/
def parseExpressions : List Expr → Except JSError (List String)
  | [] => pure []
  | expr :: rest => do
    let text ← parseExpression expr
    let tail ← parseExpressions rest
    pure (text :: tail)
/-- The `expr.properties.map(...)` of an `objectExpression`. -/
def parseProperties : List (Expr × Expr) → Except JSError (List String)
  | [] => pure []
  | (key, value) :: rest => do
    let text := (← parseExpression key) ++ ": " ++ (← parseExpression value)
    let tail ← parseProperties rest
    pure (text :: tail)
end

/-- The type names that `checkType` recognizes. -/
def recognizedTypes : List String :=
  ["string", "number", "boolean", "array", "object", "any"]

/-- The shape rule in the words of the specification: `string`, `number` and `boolean` match
the values of that primitive kind, `array` matches exactly the lists, `object` matches exactly
the non-null non-array mappings, `any` matches every value. The lists are the arrays,
`Array.prototype` among them; the mappings are the objects that are neither an array nor a
function. -/
def specShapeMatches (type : String) (value : JSValue) : Bool :=
  match type, value with
  | "string", .str _ => true
  | "number", .num _ => true
  | "boolean", .bool _ => true
  | "array", .arr _ => true
  | "array", .builtin .arrayPrototype => true
  | "object", .obj _ => true
  | "object", .withProto _ _ => true
  | "object", .builtin .objectPrototype => true
  | "any", _ => true
  | _, _ => false

/-- A document that has every section, each of them empty, except that `exceptions` holds the
given list of elements. -/
def documentWithExceptions (exceptions : List JSValue) : JSValue :=
  .obj [
    ("modules", .arr []),
    ("css", .arr []),
    ("libraries", .arr []),
    ("classes", .arr []),
    ("functions", .arr []),
    ("conditions", .arr []),
    ("loops", .obj [
      ("for", .obj [("initializer", .str "let i = 0"), ("condition", .str "i < 3"),
        ("increment", .str "i++"), ("body", .arr [])]),
      ("while", .obj [("condition", .str "false"), ("body", .arr [])]),
      ("doWhile", .obj [("condition", .str "false"), ("body", .arr [])])]),
    ("exceptions", .arr exceptions),
    ("components", .arr [])]

/-- The value of `expr.type`. -/
def Expr.type : Expr → String
  | .identifier .. => "identifier"
  | .callExpression .. => "callExpression"
  | .memberExpression .. => "memberExpression"
  | .awaitExpression .. => "awaitExpression"
  | .binaryExpression .. => "binaryExpression"
  | .logicalExpression .. => "logicalExpression"
  | .arrowFunctionExpression .. => "arrowFunctionExpression"
  | .literal .. => "literal"
  | .arrayExpression .. => "arrayExpression"
  | .objectExpression .. => "objectExpression"
  | .assignmentExpression .. => "assignmentExpression"
  | .unaryExpression .. => "unaryExpression"
  | .updateExpression .. => "updateExpression"
  | .conditionalExpression .. => "conditionalExpression"
  | .newExpression .. => "newExpression"
  | .sequenceExpression .. => "sequenceExpression"
  | .templateLiteral .. => "templateLiteral"
  | .taggedTemplateExpression .. => "taggedTemplateExpression"
  | .yieldExpression .. => "yieldExpression"
  | .classExpression .. => "classExpression"
  | .functionExpression .. => "functionExpression"
  | .thisExpression => "thisExpression"
  | .super => "super"
  | .metaProperty .. => "metaProperty"
  | .importExpression .. => "importExpression"
  | .chainExpression .. => "chainExpression"
  | .jsxElement => "jsxElement"
  | .jsxFragment => "jsxFragment"
  | .jsxExpressionContainer .. => "jsxExpressionContainer"
  | .jsxText .. => "jsxText"
  | .jsxOpeningElement .. => "jsxOpeningElement"
  | .jsxClosingElement .. => "jsxClosingElement"
  | .jsxAttribute .. => "jsxAttribute"
  | .jsxSpreadAttribute .. => "jsxSpreadAttribute"
  | .jsxNamespacedName .. => "jsxNamespacedName"
  | .jsxMemberExpression .. => "jsxMemberExpression"
  | .objectPattern .. => "objectPattern"
  | .arrayPattern .. => "arrayPattern"
  | .restElement .. => "restElement"
  | .assignmentPattern .. => "assignmentPattern"
  | .spreadElement .. => "spreadElement"
  | .property .. => "property"
  | .methodDefinition .. => "methodDefinition"
  | .classProperty .. => "classProperty"
  | .importDeclaration .. => "importDeclaration"
  | .importSpecifier .. => "importSpecifier"
  | .importDefaultSpecifier .. => "importDefaultSpecifier"
  | .importNamespaceSpecifier .. => "importNamespaceSpecifier"
  | .exportNamedDeclaration .. => "exportNamedDeclaration"
  | .exportDefaultDeclaration .. => "exportDefaultDeclaration"
  | .exportAllDeclaration .. => "exportAllDeclaration"
  | .variableDeclaration .. => "variableDeclaration"
  | .variableDeclarator .. => "variableDeclarator"
  | .functionDeclaration .. => "functionDeclaration"
  | .classDeclaration .. => "classDeclaration"
  | .exportSpecifier .. => "exportSpecifier"
  | .objectMethod .. => "objectMethod"
  | .objectProperty .. => "objectProperty"
  | .classMethod .. => "classMethod"
  | .privateName .. => "privateName"
  | .decorator .. => "decorator"
  | .doExpression .. => "doExpression"
  | .parenthesizedExpression .. => "parenthesizedExpression"
  | .other type => type

/-- The `case` labels of the `switch` in `parseExpression`. -/
def expressionCases : List String :=
  ["identifier", "callExpression", "memberExpression", "awaitExpression", "binaryExpression",
   "logicalExpression", "arrowFunctionExpression", "literal", "arrayExpression",
   "objectExpression", "assignmentExpression", "unaryExpression", "updateExpression",
   "conditionalExpression", "newExpression", "sequenceExpression", "templateLiteral",
   "taggedTemplateExpression", "yieldExpression", "classExpression", "functionExpression",
   "thisExpression", "super", "metaProperty", "importExpression", "chainExpression",
   "jsxElement", "jsxFragment", "jsxExpressionContainer", "jsxText", "jsxOpeningElement",
   "jsxClosingElement", "jsxAttribute", "jsxSpreadAttribute", "jsxNamespacedName",
   "jsxMemberExpression", "objectPattern", "arrayPattern", "restElement", "assignmentPattern",
   "spreadElement", "property", "methodDefinition", "classProperty", "importDeclaration",
   "importSpecifier", "importDefaultSpecifier", "importNamespaceSpecifier",
   "exportNamedDeclaration", "exportDefaultDeclaration", "exportAllDeclaration",
   "variableDeclaration", "variableDeclarator", "functionDeclaration", "classDeclaration",
   "exportSpecifier", "objectMethod", "objectProperty", "classMethod", "privateName",
   "decorator", "doExpression", "parenthesizedExpression"]

/-- The interleaving that the specification asks of a template literal: the first quasi, then
for each further quasi an expression slot holding the next emitted expression followed by that
quasi. -/
def specInterleave : List String → List String → String
  | [], _ => ""
  | quasi :: quasis, texts =>
    match quasis, texts with
    | next :: more, text :: others =>
      quasi ++ "$\x7b" ++ text ++ "\x7d" ++ specInterleave (next :: more) others
    | _, _ => quasi

/-! ## `JSXParser.js` -/

/-- The character `{`. -/
def openBrace : Char := Char.ofNat 123

/-- The character `}`. -/
def closeBrace : Char := Char.ofNat 125

/-- The line terminators, which `.` of a regular expression does not match: LF, CR, U+2028 and
U+2029. -/
def isLineTerminator (c : Char) : Bool :=
  c.toNat == 10 || c.toNat == 13 || c.toNat == 8232 || c.toNat == 8233

/-- The number of leading characters that `.` can match. -/
def dotRun : List Char → Nat
  | [] => 0
  | c :: rest => if isLineTerminator c then 0 else dotRun rest + 1

/-- Backtracking of the greedy group `(.+)`: with `n` characters taken by the group, the rest of
the pattern, `\}\}$`, must match what is left; otherwise the group gives back one character, and
it keeps at least one. -/
def backtrack (chars : List Char) : Nat → Option (List Char)
  | 0 => none
  | n + 1 =>
    if chars.drop (n + 1) == [closeBrace, closeBrace] then some (chars.take (n + 1))
    else backtrack chars n

/-- The first capture group of `text.match(/^\{\{(.+)\}\}$/)`, or `none` when `match` returns
`null`. -/
def matchDynamic (text : String) : Option String :=
  match text.data with
  | c₁ :: c₂ :: rest =>
    if c₁ == openBrace && c₂ == openBrace then
      (backtrack rest (dotRun rest)).map String.mk
    else
      none
  | _ => none

/-- Markup nodes handed to `parseJSX`: a string leaf, an object with the fields `type`, `props`
and `children` that the code reads (`props` and `children` are `none` when absent), or any
other object, which has no `type`. The list `props` holds the entries of `element.props` in
the order in which `Object.entries` supplies them. -/
inductive MarkupNode where
  | text (value : String)
  | element (type : String) (props : Option (List (String × JSValue)))
      (children : Option (List MarkupNode))
  | other

/-- The name under which an attribute is emitted: `propKey` of the source. -/
def propKey (key : String) : String :=
  let propKey := key
  let propKey := if key == "class" then "className" else propKey
  let propKey := if key == "for" then "htmlFor" else propKey
  propKey

/-- The text added to `jsxCode` for one entry of `Object.entries(element.props)`. The
argument `stringify` is the built-in `JSON.stringify`; its result `undefined` is `none`, which
the template literal writes as `undefined`. -/
def parseProp (stringify : JSValue → Option String) (entry : String × JSValue) : String :=
  match entry.2 with
  | .str value =>
    match matchDynamic value with
    | some expr => " " ++ propKey entry.1 ++ "=\x7b" ++ expr ++ "\x7d"
    | none => " " ++ propKey entry.1 ++ "=\"" ++ value ++ "\""
  | value => " " ++ propKey entry.1 ++ "=\x7b" ++ (stringify value).getD "undefined" ++ "\x7d"

/-- The `Object.entries(element.props).forEach(...)` loop: the texts of the entries, in
order. -/
def parseProps (stringify : JSValue → Option String) : List (String × JSValue) → String
  | [] => ""
  | entry :: rest => parseProp stringify entry ++ parseProps stringify rest

/-- The indentation `' '.repeat(level * 2)` of `parseJSX`. -/
def jsxIndentation (level : Nat) : String :=
  strRepeat " " (level * 2)

mutual
/-- The function `parseJSX(elements, level)`, with the built-in `JSON.stringify` as the
argument `stringify`. -/
def parseJSX (stringify : JSValue → Option String) : List MarkupNode → Nat → String
  | [], _ => ""
  | element :: rest, level =>
    parseElement stringify element level ++ parseJSX stringify rest level
/-- The body of the `forEach` callback of `parseJSX`: the text added to `jsxCode` for one
element. An `element.type` that is the empty string is falsy, so such an element adds
nothing. -/
def parseElement (stringify : JSValue → Option String) : MarkupNode → Nat → String
  | .text element, level =>
    match matchDynamic element with
    | some expr => jsxIndentation level ++ "\x7b" ++ expr ++ "\x7d\n"
    | none => jsxIndentation level ++ element ++ "\n"
  | .element type props children, level =>
    if type != "" then
      let jsxCode := jsxIndentation level ++ "<" ++ type
      let jsxCode :=
        match props with
        | some props => jsxCode ++ parseProps stringify props
        | none => jsxCode
      match children with
      | some children =>
        if children.length > 0 then
          jsxCode ++ ">\n" ++ parseJSX stringify children (level + 1)
            ++ jsxIndentation level ++ "</" ++ type ++ ">\n"
        else
          jsxCode ++ " />\n"
      | none => jsxCode ++ " />\n"
    else
      ""
  | .other, _ => ""
end

/-- The mapping with the own properties `fields` after the own property `k` has been written
with `v`: the value of an existing key is replaced in place, a new key is added at the end. -/
def setField (fields : List (String × JSValue)) (k : String) (v : JSValue) :
    List (String × JSValue) :=
  match fields with
  | [] => [(k, v)]
  | (key, value) :: rest =>
    if key == k then (key, v) :: rest else (key, value) :: setField rest k v

/-- The assignment `data[k] = v` on a plain mapping `data` with the own properties `fields`.
It writes the own property `k`, except for the key `__proto__` on a mapping without an own
property of that name: that assignment runs the setter inherited from `Object.prototype`,
which makes an object or `null` the prototype of the mapping and ignores any other value. -/
def assignField (fields : List (String × JSValue)) (k : String) (v : JSValue) : JSValue :=
  if k == "__proto__" && (fields.lookup k).isNone then
    match v with
    | .undefined => .obj fields
    | .bool _ => .obj fields
    | .num _ => .obj fields
    | .str _ => .obj fields
    | _ => .withProto fields v
  else
    .obj (setField fields k v)

/-- The data `data'` arises from `data` by assigning to keys that the schema does not declare,
`__proto__` excepted: at the top of a mapping, inside a nested object under the nested schema of
its key, or inside an element of a nested array under the nested schema of its key; any number
of times. -/
inductive Widened : JSValue → JSValue → JSValue → Prop where
  | same (schema data : JSValue) : Widened schema data data
  | undeclared (schema : JSValue) (fields : List (String × JSValue)) (k : String) (v : JSValue) :
      k ≠ "__proto__" → (∀ keys, objectKeys schema = .ok keys → k ∉ keys) →
      Widened schema (.obj fields) (assignField fields k v)
  | nestedObject (schema : JSValue) (fields : List (String × JSValue)) (key : String)
      (entry nested : JSValue) (inner inner' : List (String × JSValue)) :
      getProp schema key = .ok entry → getProp entry "schema" = .ok nested →
      fields.lookup key = some (.obj inner) → Widened nested (.obj inner) (.obj inner') →
      Widened schema (.obj fields) (assignField fields key (.obj inner'))
  | nestedElement (schema : JSValue) (fields : List (String × JSValue)) (key : String)
      (entry nested : JSValue) (items : List JSValue) (i : Nat) (item item' : JSValue) :
      getProp schema key = .ok entry → getProp entry "schema" = .ok nested →
      fields.lookup key = some (.arr items) → items[i]? = some item →
      Widened nested item item' →
      Widened schema (.obj fields) (assignField fields key (.arr (items.set i item')))
  | trans (schema a b c : JSValue) :
      Widened schema a b → Widened schema b c → Widened schema a c

/-! ## The recursion of `validateYAML` -/

theorem JSValue.size_pos (v : JSValue) : 0 < v.size := by
  cases v <;> simp [JSValue.size]

theorem lookup_size_lt (key : String) (w : JSValue) :
    ∀ kvs : List (String × JSValue), kvs.lookup key = some w → w.size < sizeFields kvs + 1 := by
  intro kvs
  induction kvs with
  | nil => intro h; simp [List.lookup] at h
  | cons kv rest ih =>
    obtain ⟨k, v⟩ := kv
    intro h
    simp only [List.lookup] at h
    split at h
    · injection h with h; subst h; simp only [sizeFields]; omega
    · have := ih h; simp only [sizeFields]; omega

theorem getElem?_size_lt (w : JSValue) :
    ∀ (xs : List JSValue) (i : Nat), xs[i]? = some w → w.size < sizeList xs + 1 := by
  intro xs
  induction xs with
  | nil => intro i h; simp at h
  | cons x rest ih =>
    intro i h
    cases i with
    | zero => simp at h; subst h; simp only [sizeList]; omega
    | succ j =>
      simp at h
      have := ih j h; simp only [sizeList]; omega

theorem objectPrototypeSlot_value {key : String} {w : JSValue}
    (h : objectPrototypeSlot key = .value w) : w = .builtin .function := by
  unfold objectPrototypeSlot at h
  split at h
  · cases h
  · split at h
    · injection h with h; exact h.symm
    · cases h

theorem arrayPrototypeSlot_value {key : String} {w : JSValue}
    (h : arrayPrototypeSlot key = .value w) : w.size = 1 := by
  unfold arrayPrototypeSlot at h
  split at h
  · injection h with h; subst h; rfl
  · split at h
    · injection h with h; subst h; rfl
    · rw [objectPrototypeSlot_value h]; rfl

theorem findSlot_size_le : ∀ (v : JSValue) (key : String) (w : JSValue),
    findSlot v key = .value w → w.size ≤ v.size
  | .undefined, _, _, h => by simp [findSlot] at h
  | .null, _, _, h => by simp [findSlot] at h
  | .bool _, _, _, h => by simp [findSlot] at h
  | .num _, _, _, h => by simp [findSlot] at h
  | .str s, key, w, h => by
    simp only [findSlot] at h
    split at h
    · split at h
      · injection h with h; subst h; simp [JSValue.size]
      · cases h
    · split at h
      · injection h with h; subst h; simp [JSValue.size]
      · cases h
  | .arr xs, key, w, h => by
    simp only [findSlot] at h
    split at h
    · rename_i i _
      split at h
      · rename_i x hx
        injection h with h; subst h
        have := getElem?_size_lt _ xs i hx; simp only [JSValue.size]; omega
      · have := arrayPrototypeSlot_value h
        have := (JSValue.arr xs).size_pos; omega
    · split at h
      · injection h with h; subst h; simp [JSValue.size]
      · have := arrayPrototypeSlot_value h
        have := (JSValue.arr xs).size_pos; omega
  | .obj kvs, key, w, h => by
    simp only [findSlot] at h
    split at h
    · rename_i x hl
      injection h with h; subst h
      have := lookup_size_lt _ _ kvs hl; simp only [JSValue.size]; omega
    · rw [objectPrototypeSlot_value h]
      have := (JSValue.obj kvs).size_pos
      simp only [JSValue.size] at this ⊢; omega
  | .withProto kvs proto, key, w, h => by
    simp only [findSlot] at h
    split at h
    · rename_i x hl
      injection h with h; subst h
      have := lookup_size_lt _ _ kvs hl; simp only [JSValue.size]; omega
    · have := findSlot_size_le proto key w h
      simp only [JSValue.size]; omega
  | .builtin .objectPrototype, key, w, h => by
    simp only [findSlot] at h
    rw [objectPrototypeSlot_value h]; simp [JSValue.size]
  | .builtin .arrayPrototype, key, w, h => by
    simp only [findSlot] at h
    rw [arrayPrototypeSlot_value h]; simp [JSValue.size]
  | .builtin .function, key, w, h => by
    simp only [findSlot] at h
    rw [objectPrototypeSlot_value h]

theorem protoOf_size_le (v : JSValue) : (protoOf v).size ≤ v.size := by
  have := v.size_pos
  cases v with
  | withProto kvs proto => simp only [protoOf, JSValue.size]; omega
  | builtin b => cases b <;> simp [protoOf, JSValue.size]
  | _ => simp [protoOf, JSValue.size]

theorem getProp_eq (v : JSValue) (key : String) (h1 : v ≠ .undefined) (h2 : v ≠ .null) :
    getProp v key = .ok (match findSlot v key with
      | .value w => w
      | .protoAccessor => protoOf v
      | .absent => .undefined) := by
  cases v with
  | undefined => exact absurd rfl h1
  | null => exact absurd rfl h2
  | bool b => simp only [getProp]; cases findSlot (.bool b) key <;> rfl
  | num n => simp only [getProp]; cases findSlot (.num n) key <;> rfl
  | str s => simp only [getProp]; cases findSlot (.str s) key <;> rfl
  | arr xs => simp only [getProp]; cases findSlot (.arr xs) key <;> rfl
  | obj kvs => simp only [getProp]; cases findSlot (.obj kvs) key <;> rfl
  | withProto kvs proto => simp only [getProp]; cases findSlot (.withProto kvs proto) key <;> rfl
  | builtin b => simp only [getProp]; cases findSlot (.builtin b) key <;> rfl

theorem getProp_eq_slot {v w : JSValue} {key : String} (h : getProp v key = .ok w) :
    findSlot v key = .value w ∨ (findSlot v key = .protoAccessor ∧ w = protoOf v) ∨
      (findSlot v key = .absent ∧ w = .undefined) := by
  have h1 : v ≠ .undefined := by rintro rfl; cases h
  have h2 : v ≠ .null := by rintro rfl; cases h
  rw [getProp_eq v key h1 h2] at h
  injection h with h
  cases hs : findSlot v key with
  | value x => rw [hs] at h; exact Or.inl (by rw [← h])
  | protoAccessor => rw [hs] at h; exact Or.inr (Or.inl ⟨rfl, h.symm⟩)
  | absent => rw [hs] at h; exact Or.inr (Or.inr ⟨rfl, h.symm⟩)

theorem getProp_size_le {v w : JSValue} {key : String} (h : getProp v key = .ok w) :
    w.size ≤ v.size := by
  rcases getProp_eq_slot h with hs | ⟨_, hw⟩ | ⟨_, hw⟩
  · exact findSlot_size_le v key w hs
  · rw [hw]; exact protoOf_size_le v
  · rw [hw]; exact v.size_pos

theorem findSlot_schema_size_lt : ∀ (v : JSValue) (w : JSValue),
    findSlot v "schema" = .value w → truthy w = true → w.size < v.size
  | .undefined, _, h, _ => by simp [findSlot] at h
  | .null, _, h, _ => by simp [findSlot] at h
  | .bool _, _, h, _ => by simp [findSlot] at h
  | .num _, _, h, _ => by simp [findSlot] at h
  | .str s, w, h, _ => by
    have hc : canonicalIndex "schema" = none := rfl
    simp [findSlot, hc] at h
  | .arr xs, w, h, _ => by
    have hc : canonicalIndex "schema" = none := by decide
    have ha : arrayPrototypeSlot "schema" = .absent := rfl
    simp [findSlot, hc, ha] at h
  | .obj kvs, w, h, _ => by
    have ho : objectPrototypeSlot "schema" = .absent := rfl
    simp only [findSlot, ho] at h
    split at h
    · rename_i x hl
      injection h with h; subst h
      have := lookup_size_lt _ _ kvs hl; simp only [JSValue.size]; omega
    · cases h
  | .withProto kvs proto, w, h, ht => by
    simp only [findSlot] at h
    split at h
    · rename_i x hl
      injection h with h; subst h
      have := lookup_size_lt _ _ kvs hl; simp only [JSValue.size]; omega
    · have := findSlot_schema_size_lt proto w h ht
      simp only [JSValue.size]; omega
  | .builtin .objectPrototype, w, h, _ => by
    have ho : objectPrototypeSlot "schema" = .absent := rfl
    simp [findSlot, ho] at h
  | .builtin .arrayPrototype, w, h, _ => by
    have ha : arrayPrototypeSlot "schema" = .absent := rfl
    simp [findSlot, ha] at h
  | .builtin .function, w, h, _ => by
    have ho : objectPrototypeSlot "schema" = .absent := rfl
    simp [findSlot, ho] at h

theorem findSlot_schema_ne_accessor : ∀ v : JSValue, findSlot v "schema" ≠ .protoAccessor
  | .undefined => by simp [findSlot]
  | .null => by simp [findSlot]
  | .bool _ => by simp [findSlot]
  | .num _ => by simp [findSlot]
  | .str s => by
    have hc : canonicalIndex "schema" = none := rfl
    simp [findSlot, hc]
  | .arr xs => by
    have hc : canonicalIndex "schema" = none := by decide
    have ha : arrayPrototypeSlot "schema" = .absent := rfl
    simp [findSlot, hc, ha]
  | .obj kvs => by
    have ho : objectPrototypeSlot "schema" = .absent := rfl
    simp only [findSlot, ho]
    split <;> simp
  | .withProto kvs proto => by
    simp only [findSlot]
    split
    · simp
    · exact findSlot_schema_ne_accessor proto
  | .builtin .objectPrototype => by
    have ho : objectPrototypeSlot "schema" = .absent := rfl
    simp [findSlot, ho]
  | .builtin .arrayPrototype => by
    have ha : arrayPrototypeSlot "schema" = .absent := rfl
    simp [findSlot, ha]
  | .builtin .function => by
    have ho : objectPrototypeSlot "schema" = .absent := rfl
    simp [findSlot, ho]

theorem getProp_schema_size_lt {v w : JSValue} (h : getProp v "schema" = .ok w)
    (ht : truthy w = true) : w.size < v.size := by
  have hp : findSlot v "schema" ≠ .protoAccessor := findSlot_schema_ne_accessor v
  rcases getProp_eq_slot h with hs | ⟨hs, _⟩ | ⟨_, hw⟩
  · exact findSlot_schema_size_lt v w hs ht
  · exact absurd hs hp
  · rw [hw] at ht; cases ht

theorem forEach_congr {α : Type} (xs : List α) (f g : α → Except JSError Unit)
    (h : ∀ x ∈ xs, f x = g x) : forEach xs f = forEach xs g := by
  induction xs with
  | nil => rfl
  | cons x rest ih =>
    simp only [forEach]
    rw [h x (by simp), ih (fun y hy => h y (by simp [hy]))]

theorem forEachItem_congr (t : JSValue) (f g : JSValue → Except JSError Unit)
    (h : ∀ x, f x = g x) : forEachItem t f = forEachItem t g := by
  have : f = g := funext h
  rw [this]

theorem validateNested_congr (r1 r2 : JSValue → JSValue → Except JSError Unit)
    (nested expectedType : JSValue) (key : String) (data : JSValue)
    (h : truthy nested = true → ∀ d, r1 nested d = r2 nested d) :
    validateNested r1 nested expectedType key data
      = validateNested r2 nested expectedType key data := by
  unfold validateNested
  cases ht : truthy nested with
  | false => simp
  | true =>
    have hr : r1 nested = r2 nested := funext (h ht)
    simp only [hr]

theorem validateKey_congr (r1 r2 : JSValue → JSValue → Except JSError Unit)
    (schema data : JSValue) (key : String)
    (h : ∀ entry nested, getProp schema key = .ok entry → getProp entry "schema" = .ok nested →
      truthy nested = true → ∀ d, r1 nested d = r2 nested d) :
    validateKey r1 schema data key = validateKey r2 schema data key := by
  unfold validateKey
  cases h1 : getProp schema key with
  | error e => rfl
  | ok entry =>
    cases h2 : getProp entry "schema" with
    | error e => simp only [bind, Except.bind, h2]
    | ok nested =>
      have hn : ∀ et, validateNested r1 nested et key data = validateNested r2 nested et key data :=
        fun et => validateNested_congr r1 r2 nested et key data (h entry nested h1 h2)
      simp only [bind, Except.bind, h2, hn]

theorem validateYAMLAux_stable : ∀ (n m : Nat) (schema data : JSValue),
    schema.size ≤ n → schema.size ≤ m →
    validateYAMLAux n schema data = validateYAMLAux m schema data := by
  intro n
  induction n with
  | zero => intro m schema data hn; have := schema.size_pos; omega
  | succ n ih =>
    intro m schema data hn hm
    cases m with
    | zero => have := schema.size_pos; omega
    | succ m =>
      simp only [validateYAMLAux]
      cases hk : objectKeys schema with
      | error e => rfl
      | ok keys =>
        simp only [bind, Except.bind]
        apply forEach_congr
        intro key _
        apply validateKey_congr
        intro entry nested h1 h2 ht d
        have := getProp_size_le h1
        have := getProp_schema_size_lt h2 ht
        exact ih m nested d (by omega) (by omega)

/-- The recursion equation of `validateYAML`: the body of the source function, with the
recursive calls made by `validateYAML` itself. -/
theorem validateYAML_unfold (schema data : JSValue) :
    validateYAML schema data = (do
      let keys ← objectKeys schema
      forEach keys (validateKey validateYAML schema data)) := by
  unfold validateYAML
  obtain ⟨n, hn⟩ : ∃ n, schema.size = n + 1 := ⟨schema.size - 1, by have := schema.size_pos; omega⟩
  rw [hn]
  simp only [validateYAMLAux]
  cases hk : objectKeys schema with
  | error e => rfl
  | ok keys =>
    simp only [bind, Except.bind]
    apply forEach_congr
    intro key _
    apply validateKey_congr
    intro entry nested h1 h2 ht d
    have := getProp_size_le h1
    have := getProp_schema_size_lt h2 ht
    exact validateYAMLAux_stable n nested.size nested d (by omega) (by omega)


theorem bind_ne_fuelExhausted {α β : Type} (x : Except JSError α) (f : α → Except JSError β)
    (hx : x ≠ .error .fuelExhausted) (hf : ∀ a, x = .ok a → f a ≠ .error .fuelExhausted) :
    (x >>= f) ≠ .error .fuelExhausted := by
  cases x with
  | error e =>
    intro h
    have he : e = JSError.fuelExhausted := by
      have h2 : (Except.error e : Except JSError β) = Except.error JSError.fuelExhausted := h
      injection h2
    exact hx (by rw [he])
  | ok a =>
    show f a ≠ Except.error JSError.fuelExhausted
    exact hf a rfl

theorem getProp_ne_fuelExhausted (v : JSValue) (key : String) :
    getProp v key ≠ .error .fuelExhausted := by
  by_cases h1 : v = .undefined
  · subst h1; intro h; cases h
  · by_cases h2 : v = .null
    · subst h2; intro h; cases h
    · rw [getProp_eq v key h1 h2]; intro h; cases h

theorem hasProperty_ne_fuelExhausted (key : String) (v : JSValue) :
    hasProperty key v ≠ .error .fuelExhausted := by
  cases v <;> (intro h; cases h)

theorem checkType_ne_fuelExhausted (value type : JSValue) :
    checkType value type ≠ .error .fuelExhausted := by
  unfold checkType
  split <;> (intro h; cases h)

theorem checkRequired_ne_fuelExhausted (required : JSValue) (key : String) (data : JSValue) :
    checkRequired required key data ≠ .error .fuelExhausted := by
  unfold checkRequired
  split
  · apply bind_ne_fuelExhausted _ _ (hasProperty_ne_fuelExhausted key data)
    intro present _
    cases present <;> (intro h; cases h)
  · intro h; cases h

theorem checkPresent_ne_fuelExhausted (expectedType : JSValue) (key : String) (data : JSValue) :
    checkPresent expectedType key data ≠ .error .fuelExhausted := by
  unfold checkPresent
  apply bind_ne_fuelExhausted _ _ (hasProperty_ne_fuelExhausted key data)
  intro present _
  cases present
  · intro h; cases h
  · apply bind_ne_fuelExhausted _ _ (getProp_ne_fuelExhausted data key)
    intro value _
    apply bind_ne_fuelExhausted _ _ (checkType_ne_fuelExhausted value expectedType)
    intro ok _
    cases ok <;> (intro h; cases h)

theorem forEach_ne_fuelExhausted {α : Type} (f : α → Except JSError Unit) :
    ∀ xs : List α, (∀ x ∈ xs, f x ≠ .error .fuelExhausted) →
      forEach xs f ≠ .error .fuelExhausted := by
  intro xs
  induction xs with
  | nil => intro _ h; cases h
  | cons x rest ih =>
    intro hall
    simp only [forEach]
    apply bind_ne_fuelExhausted _ _ (hall x (by simp))
    intro _ _
    exact ih (fun y hy => hall y (by simp [hy]))

theorem forEachItem_ne_fuelExhausted (target : JSValue) (f : JSValue → Except JSError Unit)
    (hf : ∀ item, f item ≠ .error .fuelExhausted) :
    forEachItem target f ≠ .error .fuelExhausted := by
  cases target with
  | arr items => exact forEach_ne_fuelExhausted f items (fun x _ => hf x)
  | builtin b => cases b <;> (intro h; cases h)
  | _ => intro h; cases h

theorem validateNested_ne_fuelExhausted (recur : JSValue → JSValue → Except JSError Unit)
    (nested expectedType : JSValue) (key : String) (data : JSValue)
    (hr : truthy nested = true → ∀ d, recur nested d ≠ .error .fuelExhausted) :
    validateNested recur nested expectedType key data ≠ .error .fuelExhausted := by
  unfold validateNested
  split
  · rename_i hc
    have ht : truthy nested = true := by
      simp only [Bool.and_eq_true] at hc
      exact hc.1
    split
    · apply bind_ne_fuelExhausted _ _ (getProp_ne_fuelExhausted data key)
      intro d _
      exact hr ht d
    · split
      · apply bind_ne_fuelExhausted _ _ (getProp_ne_fuelExhausted data key)
        intro target _
        exact forEachItem_ne_fuelExhausted target _ (hr ht)
      · intro h; cases h
  · intro h; cases h

theorem validateKey_ne_fuelExhausted (recur : JSValue → JSValue → Except JSError Unit)
    (schema data : JSValue) (key : String)
    (hr : ∀ entry nested, getProp schema key = .ok entry → getProp entry "schema" = .ok nested →
      truthy nested = true → ∀ d, recur nested d ≠ .error .fuelExhausted) :
    validateKey recur schema data key ≠ .error .fuelExhausted := by
  unfold validateKey
  apply bind_ne_fuelExhausted _ _ (getProp_ne_fuelExhausted schema key)
  intro entry hentry
  apply bind_ne_fuelExhausted _ _ (getProp_ne_fuelExhausted entry "type")
  intro expectedType _
  apply bind_ne_fuelExhausted _ _ (getProp_ne_fuelExhausted entry "required")
  intro required _
  apply bind_ne_fuelExhausted _ _ (checkRequired_ne_fuelExhausted required key data)
  intro _ _
  apply bind_ne_fuelExhausted _ _ (checkPresent_ne_fuelExhausted expectedType key data)
  intro _ _
  apply bind_ne_fuelExhausted _ _ (getProp_ne_fuelExhausted entry "schema")
  intro nested hnested
  exact validateNested_ne_fuelExhausted recur nested expectedType key data
    (hr entry nested hentry hnested)

theorem validateYAMLAux_ne_fuelExhausted : ∀ (n : Nat) (schema data : JSValue),
    schema.size ≤ n → validateYAMLAux n schema data ≠ .error .fuelExhausted := by
  intro n
  induction n with
  | zero => intro schema data hn; have := schema.size_pos; omega
  | succ n ih =>
    intro schema data hn
    simp only [validateYAMLAux]
    apply bind_ne_fuelExhausted
    · cases schema <;> (intro h; cases h)
    · intro keys _
      apply forEach_ne_fuelExhausted
      intro key _
      apply validateKey_ne_fuelExhausted
      intro entry nested h1 h2 ht d
      have := getProp_size_le h1
      have := getProp_schema_size_lt h2 ht
      exact ih nested d (by omega)

/-- The recursion budget of `validateYAML` is never used up. -/
theorem validateYAML_ne_fuelExhausted (schema data : JSValue) :
    validateYAML schema data ≠ .error .fuelExhausted :=
  validateYAMLAux_ne_fuelExhausted schema.size schema data (Nat.le_refl _)

/-! ## Statement emitter -/

theorem parseBody_cons (s : Stmt) (rest : List Stmt) (level : Nat) :
    parseBody (s :: rest) level = (do
      let code ← parseStatement s level
      let tail ← parseBody rest level
      pure (code ++ tail)) := rfl

theorem parseBody_nil (level : Nat) : parseBody [] level = .ok "" := rfl

theorem parseStatement_other (type : String) (level : Nat) :
    parseStatement (.other type) level = .ok "" := rfl

theorem parseBody_singleton (s : Stmt) (level : Nat) :
    parseBody [s] level = parseStatement s level := by
  rw [parseBody_cons, parseBody_nil]
  cases parseStatement s level <;> simp [bind, Except.bind, pure, Except.pure]

theorem parseBody_append (xs ys : List Stmt) (level : Nat) :
    parseBody (xs ++ ys) level = (do
      let a ← parseBody xs level
      let b ← parseBody ys level
      pure (a ++ b)) := by
  induction xs with
  | nil =>
    simp only [List.nil_append, parseBody_nil]
    cases parseBody ys level <;> simp [bind, Except.bind, pure, Except.pure]
  | cons x rest ih =>
    simp only [List.cons_append, parseBody_cons, ih]
    cases parseStatement x level <;> cases parseBody rest level <;> cases parseBody ys level <;>
      simp [bind, Except.bind, pure, Except.pure, String.append_assoc]

theorem indentation_data (level : Nat) :
    indentation level = String.mk (List.replicate (4 * level) ' ') := by
  induction level with
  | zero => rfl
  | succ n ih =>
    unfold indentation at ih ⊢
    rw [strRepeat, ih]
    apply String.ext
    simp only [String.data_append]
    have : 4 * (n + 1) = 4 + 4 * n := by omega
    rw [this, List.replicate_add]
    rfl

/-- C1. At every level `N`, a block-bearing statement is emitted as its opening line behind
exactly `N` indentation units of four spaces, then exactly the nested sequence emitted at level
`N + 1`, then its closing-brace line behind `N` units (for `if`, `for`, `while`, `do-while`,
`try` and a bare block); the `if` of the spec at level 1 emits the three expected lines. -/
theorem parseBody_block_indentation (N : Nat) :
    indentation N = String.mk (List.replicate (4 * N) ' ') ∧
    (∀ test body, parseBody [.ifStatement test (some body) none] N =
      (parseBody body (N + 1)).map (fun nested =>
        indentation N ++ "if (" ++ test ++ ") \x7b\n" ++ nested ++ indentation N ++ "\x7d\n")) ∧
    (∀ test body alt, parseBody [.ifStatement test (some body) (some alt)] N = (do
      let nested ← parseBody body (N + 1)
      let other ← parseBody alt (N + 1)
      pure (indentation N ++ "if (" ++ test ++ ") \x7b\n" ++ nested ++ indentation N ++ "\x7d\n"
        ++ indentation N ++ "else \x7b\n" ++ other ++ indentation N ++ "\x7d\n"))) ∧
    (∀ init test update body, parseBody [.forStatement init test update body] N =
      (parseBody body (N + 1)).map (fun nested =>
        indentation N ++ "for (" ++ init ++ "; " ++ test ++ "; " ++ update ++ ") \x7b\n" ++ nested
          ++ indentation N ++ "\x7d\n")) ∧
    (∀ test body, parseBody [.whileStatement test body] N =
      (parseBody body (N + 1)).map (fun nested =>
        indentation N ++ "while (" ++ test ++ ") \x7b\n" ++ nested ++ indentation N ++ "\x7d\n")) ∧
    (∀ test body, parseBody [.doWhileStatement body test] N =
      (parseBody body (N + 1)).map (fun nested =>
        indentation N ++ "do \x7b\n" ++ nested ++ indentation N ++ "\x7d while (" ++ test
          ++ ");\n")) ∧
    (∀ block param handler, parseBody [.tryStatement block param handler] N = (do
      let nested ← parseBody block (N + 1)
      let caught ← parseBody handler (N + 1)
      pure (indentation N ++ "try \x7b\n" ++ nested ++ indentation N ++ "\x7d catch (" ++ param
        ++ ") \x7b\n" ++ caught ++ indentation N ++ "\x7d\n"))) ∧
    (∀ body, parseBody [.blockStatement body] N =
      (parseBody body (N + 1)).map (fun nested =>
        indentation N ++ "\x7b\n" ++ nested ++ indentation N ++ "\x7d\n")) ∧
    parseBody [.ifStatement "x" (some [.returnStatement (.identifier "x")]) none] 1
      = .ok "    if (x) \x7b\n        return x;\n    \x7d\n" := by
  refine ⟨indentation_data N, ?_, ?_, ?_, ?_, ?_, ?_, ?_, rfl⟩
  · intro test body
    rw [parseBody_singleton]
    show Except.bind (parseBody body (N + 1)) _ = _
    cases parseBody body (N + 1) <;> rfl
  · intro test body alt
    rw [parseBody_singleton]
    show Except.bind (parseBody body (N + 1)) _ = _
    cases parseBody body (N + 1) with
    | error e => rfl
    | ok nested =>
      show Except.bind (parseBody alt (N + 1)) _ = _
      cases parseBody alt (N + 1) <;> rfl
  · intro init test update body
    rw [parseBody_singleton]
    show Except.bind (parseBody body (N + 1)) _ = _
    cases parseBody body (N + 1) <;> rfl
  · intro test body
    rw [parseBody_singleton]
    show Except.bind (parseBody body (N + 1)) _ = _
    cases parseBody body (N + 1) <;> rfl
  · intro test body
    rw [parseBody_singleton]
    show Except.bind (parseBody body (N + 1)) _ = _
    cases parseBody body (N + 1) <;> rfl
  · intro block param handler
    rw [parseBody_singleton]
    show Except.bind (parseBody block (N + 1)) _ = _
    cases parseBody block (N + 1) with
    | error e => rfl
    | ok nested =>
      show Except.bind (parseBody handler (N + 1)) _ = _
      cases parseBody handler (N + 1) <;> rfl
  · intro body
    rw [parseBody_singleton]
    show Except.bind (parseBody body (N + 1)) _ = _
    cases parseBody body (N + 1) <;> rfl

/-- C2. Statement emission preserves input order: the text of `xs ++ ys` is the text of `xs`
followed by the text of `ys` (an exception in `xs` or else in `ys` is the exception of the
whole), and three expression statements `a`, `b`, `c` are emitted in that order. -/
theorem parseBody_append_order (xs ys : List Stmt) (n : Nat) :
    parseBody (xs ++ ys) n = (do
      let a ← parseBody xs n
      let b ← parseBody ys n
      pure (a ++ b)) ∧
    (∀ a b, parseBody xs n = .ok a → parseBody ys n = .ok b →
      parseBody (xs ++ ys) n = .ok (a ++ b)) ∧
    parseBody [.expressionStatement (.identifier "a"), .expressionStatement (.identifier "b"),
      .expressionStatement (.identifier "c")] 1 = .ok "    a;\n    b;\n    c;\n" := by
  refine ⟨parseBody_append xs ys n, ?_, rfl⟩
  intro a b ha hb
  rw [parseBody_append, ha, hb]
  rfl

theorem Stmt.type_not_case (u : Stmt) (h : u.type ∉ statementCases) :
    ∃ type, u = .other type := by
  cases u <;> first | exact ⟨_, rfl⟩ | (exfalso; apply h; simp [Stmt.type, statementCases])

/-- C3. A statement whose `type` is none of the `case` labels of `parseBody` contributes no
text and no exception: the sequence `xs ++ [u] ++ ys` is emitted exactly as `xs` followed by
`ys`, and it is emitted whenever `xs` and `ys` are. -/
theorem parseBody_unhandled_isolated (u : Stmt) (xs ys : List Stmt) (n : Nat)
    (hu : u.type ∉ statementCases) :
    parseBody (xs ++ [u] ++ ys) n = (do
      let a ← parseBody xs n
      let b ← parseBody ys n
      pure (a ++ b)) ∧
    (∀ a b, parseBody xs n = .ok a → parseBody ys n = .ok b →
      parseBody (xs ++ [u] ++ ys) n = .ok (a ++ b)) := by
  obtain ⟨type, rfl⟩ := Stmt.type_not_case u hu
  have key : parseBody (xs ++ [Stmt.other type] ++ ys) n = (do
      let a ← parseBody xs n
      let b ← parseBody ys n
      pure (a ++ b)) := by
    rw [List.append_assoc, parseBody_append, List.singleton_append, parseBody_cons,
      parseStatement_other]
    cases parseBody xs n <;> cases parseBody ys n <;>
      simp [bind, Except.bind, pure, Except.pure]
  refine ⟨key, ?_⟩
  intro a b ha hb
  rw [key, ha, hb]
  rfl

/-- An instance for C3: an unknown `gotoStatement` between a `break` and a `continue`. -/
theorem parseBody_unhandled_isolated_witness :
    (Stmt.other "gotoStatement").type ∉ statementCases ∧
    parseBody ([.breakStatement] ++ [.other "gotoStatement"] ++ [.continueStatement]) 0
      = .ok "break;\ncontinue;\n" :=
  ⟨by decide,
   (parseBody_unhandled_isolated (.other "gotoStatement") [.breakStatement] [.continueStatement] 0
      (by decide)).2 "break;\n" "continue;\n" rfl rfl⟩

/-! ## Schema validator -/

theorem objectPrototypeSlot_absent {key : String} (h : key ∉ objectPrototypeKeys) :
    objectPrototypeSlot key = .absent := by
  have h1 : (key == "__proto__") = false := by
    have : key ≠ "__proto__" := by
      rintro rfl
      exact h (by decide)
    simpa using this
  simp [objectPrototypeSlot, h1, h]

theorem getProp_obj_own {kvs : List (String × JSValue)} {key : String} {w : JSValue}
    (h : kvs.lookup key = some w) : getProp (.obj kvs) key = .ok w := by
  simp only [getProp, findSlot, h]
  rfl

theorem hasProperty_obj_own {kvs : List (String × JSValue)} {key : String} {w : JSValue}
    (h : kvs.lookup key = some w) : hasProperty key (.obj kvs) = .ok true := by
  simp only [hasProperty, findSlot, h]
  rfl

theorem hasProperty_obj_absent {kvs : List (String × JSValue)} {key : String}
    (h : kvs.lookup key = none) (hk : key ∉ objectPrototypeKeys) :
    hasProperty key (.obj kvs) = .ok false := by
  simp only [hasProperty, findSlot, h, objectPrototypeSlot_absent hk]
  rfl

theorem getProp_obj_ok (kvs : List (String × JSValue)) (key : String) :
    ∃ w, getProp (.obj kvs) key = .ok w :=
  ⟨_, getProp_eq (.obj kvs) key (by intro h; cases h) (by intro h; cases h)⟩

theorem objectKeys_obj (kvs : List (String × JSValue)) :
    objectKeys (.obj kvs) = .ok (kvs.map Prod.fst) := rfl

theorem getProp_ok_of_ok {v w : JSValue} {k : String} (h : getProp v k = .ok w) (k2 : String) :
    ∃ t, getProp v k2 = .ok t := by
  have h1 : v ≠ .undefined := by rintro rfl; cases h
  have h2 : v ≠ .null := by rintro rfl; cases h
  exact ⟨_, getProp_eq v k2 h1 h2⟩

theorem forEach_error_of_mem {α : Type} (f : α → Except JSError Unit) (k : α) :
    ∀ keys : List α, k ∈ keys → (∃ e, f k = .error e) → ∃ e, forEach keys f = .error e := by
  intro keys
  induction keys with
  | nil => intro h; simp at h
  | cons x rest ih =>
    intro hmem hk
    simp only [forEach]
    cases hx : f x with
    | error e => exact ⟨e, rfl⟩
    | ok u =>
      have hne : k ≠ x := by
        rintro rfl
        obtain ⟨e, he⟩ := hk
        rw [hx] at he
        cases he
      have : k ∈ rest := by
        cases hmem with
        | head => exact absurd rfl hne
        | tail _ h => exact h
      exact ih this hk

theorem mem_keys_of_lookup {k : String} {entry : JSValue} :
    ∀ entries : List (String × JSValue), entries.lookup k = some entry →
      k ∈ entries.map Prod.fst := by
  intro entries
  induction entries with
  | nil => intro h; simp [List.lookup] at h
  | cons kv rest ih =>
    obtain ⟨k', v⟩ := kv
    intro h
    simp only [List.lookup] at h
    split at h
    · rename_i heq
      have : k = k' := by simpa using heq
      simp [this]
    · simp [ih h]

theorem lookup_none_of_absent {k : String} :
    ∀ fields : List (String × JSValue), (∀ v, (k, v) ∉ fields) → fields.lookup k = none := by
  intro fields
  induction fields with
  | nil => intro _; rfl
  | cons kv rest ih =>
    obtain ⟨k', w⟩ := kv
    intro h
    have hne : k ≠ k' := by
      rintro rfl
      exact h w (by simp)
    have hb : (k == k') = false := by simpa using hne
    simp only [List.lookup, hb]
    exact ih (fun v hv => h v (by simp [hv]))

theorem forEach_first_error {α : Type} (f : α → Except JSError Unit) (item : α)
    (post : List α) (e : JSError) (hitem : f item = .error e) :
    ∀ pre : List α, (∀ p ∈ pre, f p = .ok ()) → forEach (pre ++ item :: post) f = .error e := by
  intro pre
  induction pre with
  | nil =>
    intro _
    simp only [List.nil_append, forEach, hitem, bind, Except.bind]
  | cons p rest ih =>
    intro hpre
    simp only [List.cons_append, forEach, hpre p (by simp), bind, Except.bind]
    exact ih (fun q hq => hpre q (by simp [hq]))

theorem validateYAML_first_key_error (k : String) (entry : JSValue)
    (others : List (String × JSValue)) (data : JSValue) (e : JSError)
    (h : validateKey validateYAML (.obj ((k, entry) :: others)) data k = .error e) :
    validateYAML (.obj ((k, entry) :: others)) data = .error e := by
  rw [validateYAML_unfold, objectKeys_obj]
  simp only [List.map_cons, forEach, h, bind, Except.bind]

theorem lookup_head (k : String) (entry : JSValue) (others : List (String × JSValue)) :
    ((k, entry) :: others).lookup k = some entry := by
  simp [List.lookup]

/-- C4 (counterexample). The key `toString` is declared with `required: true` and the data
`{}` does not hold it, yet validation succeeds: `'toString' in {}` is true, because every
mapping inherits `toString` from `Object.prototype`, and the inherited function passes the
type `any`. -/
theorem validateYAML_required_inherited_key :
    [("toString", JSValue.obj [("type", .str "any"), ("required", .bool true)])].lookup "toString"
        = some (.obj [("type", .str "any"), ("required", .bool true)]) ∧
    getProp (.obj [("type", .str "any"), ("required", .bool true)]) "required"
        = .ok (.bool true) ∧
    (∀ v, ("toString", v) ∉ ([] : List (String × JSValue))) ∧
    hasProperty "toString" (.obj []) = .ok true ∧
    validateYAML (.obj [("toString", .obj [("type", .str "any"), ("required", .bool true)])])
      (.obj []) = .ok () :=
  ⟨rfl, rfl, by simp, rfl, rfl⟩

/-- C4 (amended). Schema fail-fast: when a key `k` that the schema declares with
`required: true` is absent from the data mapping and is not the name of a member that a mapping
inherits from `Object.prototype`, processing `k` throws the missing-required-field error naming
`k` and `validateYAML` fails, with that very error when `k` is the first key of the schema;
validating `{}` against `{name: {type: 'string', required: true}}` fails with that error for
`name`. -/
theorem validateYAML_missing_required (entries fields : List (String × JSValue)) (k : String)
    (entry : JSValue) (hdecl : entries.lookup k = some entry)
    (hreq : getProp entry "required" = .ok (.bool true)) (habs : ∀ v, (k, v) ∉ fields)
    (hown : k ∉ objectPrototypeKeys) :
    (∃ e, validateYAML (.obj entries) (.obj fields) = .error e) ∧
    validateKey validateYAML (.obj entries) (.obj fields) k = .error (.missingRequired k) ∧
    (∀ others, validateYAML (.obj ((k, entry) :: others)) (.obj fields)
      = .error (.missingRequired k)) ∧
    validateYAML (.obj [("name", .obj [("type", .str "string"), ("required", .bool true)])])
      (.obj []) = .error (.missingRequired "name") := by
  have hin : hasProperty k (.obj fields) = .ok false :=
    hasProperty_obj_absent (lookup_none_of_absent fields habs) hown
  have hkey : ∀ es : List (String × JSValue), es.lookup k = some entry →
      validateKey validateYAML (.obj es) (.obj fields) k = .error (.missingRequired k) := by
    intro es hes
    obtain ⟨t, ht⟩ := getProp_ok_of_ok hreq "type"
    have hcr : checkRequired (.bool true) k (.obj fields) = .error (.missingRequired k) := by
      simp only [checkRequired, truthy, hin, bind, Except.bind]
      rfl
    simp only [validateKey, getProp_obj_own hes, ht, hreq, hcr, bind, Except.bind]
  refine ⟨?_, hkey entries hdecl, ?_, rfl⟩
  · rw [validateYAML_unfold, objectKeys_obj]
    exact forEach_error_of_mem _ k _ (mem_keys_of_lookup entries hdecl) ⟨_, hkey entries hdecl⟩
  · intro others
    exact validateYAML_first_key_error k entry others _ _ (hkey _ (lookup_head k entry others))

/-- An instance for C4 as amended: the required key `id` is absent from the data. -/
theorem validateYAML_missing_required_witness :
    ([("id", JSValue.obj [("type", .str "number"), ("required", .bool true)])].lookup "id"
        = some (.obj [("type", .str "number"), ("required", .bool true)]) ∧
      getProp (.obj [("type", .str "number"), ("required", .bool true)]) "required"
        = .ok (.bool true) ∧
      (∀ v, ("id", v) ∉ [("other", JSValue.null)]) ∧
      "id" ∉ objectPrototypeKeys) ∧
    validateKey validateYAML
      (.obj [("id", .obj [("type", .str "number"), ("required", .bool true)])])
      (.obj [("other", .null)]) "id" = .error (.missingRequired "id") :=
  ⟨⟨rfl, rfl, by simp, by decide⟩,
   (validateYAML_missing_required
      [("id", .obj [("type", .str "number"), ("required", .bool true)])] [("other", .null)] "id"
      (.obj [("type", .str "number"), ("required", .bool true)]) rfl rfl (by simp)
      (by decide)).2.1⟩

theorem checkType_recognized (type : String) (value : JSValue) (h : type ∈ recognizedTypes) :
    checkType value (.str type) = .ok (specShapeMatches type value) := by
  simp only [recognizedTypes, List.mem_cons, List.mem_singleton, List.mem_nil_iff, or_false] at h
  rcases h with rfl | rfl | rfl | rfl | rfl | rfl <;> cases value <;>
    first | rfl | (rename_i b; cases b <;> rfl)

/-- C5. Type check: for a key present in the data whose schema entry has a recognized type,
`checkType` returns exactly the shape rule of the specification, the type-check statement of
`validateYAML` throws the type-mismatch error for that key exactly when the shape does not
match (and passes otherwise), processing the key then throws that error, which is the result of
`validateYAML` when the key is the first of the schema, and `any` matches every value. -/
theorem checkType_shape (type key : String) (data value : JSValue)
    (htype : type ∈ recognizedTypes) (hpresent : hasProperty key data = .ok true)
    (hvalue : getProp data key = .ok value) :
    checkType value (.str type) = .ok (specShapeMatches type value) ∧
    (checkPresent (.str type) key data = .error (.typeMismatch key (.str type) (typeof value))
      ↔ specShapeMatches type value = false) ∧
    (checkPresent (.str type) key data = .ok () ↔ specShapeMatches type value = true) ∧
    (∀ recur schema entry, getProp schema key = .ok entry →
      getProp entry "type" = .ok (.str type) → specShapeMatches type value = false →
      validateKey recur schema data key
        = .error (.typeMismatch key (.str type) (typeof value))) ∧
    (∀ entry others, getProp entry "type" = .ok (.str type) →
      specShapeMatches type value = false →
      validateYAML (.obj ((key, entry) :: others)) data
        = .error (.typeMismatch key (.str type) (typeof value))) ∧
    specShapeMatches "any" value = true := by
  have hc := checkType_recognized type value htype
  have hp : checkPresent (.str type) key data =
      if specShapeMatches type value then .ok ()
      else .error (.typeMismatch key (.str type) (typeof value)) := by
    simp only [checkPresent, hpresent, hvalue, hc, bind, Except.bind]
    cases specShapeMatches type value <;> rfl
  have hk : ∀ (recur : JSValue → JSValue → Except JSError Unit) (schema entry : JSValue),
      getProp schema key = .ok entry →
      getProp entry "type" = .ok (.str type) → specShapeMatches type value = false →
      validateKey recur schema data key
        = .error (.typeMismatch key (.str type) (typeof value)) := by
    intro recur schema entry hentry hty hmis
    obtain ⟨r, hr⟩ := getProp_ok_of_ok hty "required"
    have hreq : checkRequired r key data = .ok () := by
      simp only [checkRequired, hpresent, bind, Except.bind]
      cases truthy r <;> rfl
    simp only [validateKey, hentry, hty, hr, hreq, hp, hmis, bind, Except.bind]
    rfl
  refine ⟨hc, ?_, ?_, hk, ?_, ?_⟩
  · rw [hp]; cases specShapeMatches type value <;> simp
  · rw [hp]; cases specShapeMatches type value <;> simp
  · intro entry others hty hmis
    apply validateYAML_first_key_error
    apply hk validateYAML _ entry _ hty hmis
    exact getProp_obj_own (lookup_head key entry others)
  · cases value <;> rfl

/-- An instance for C5: the string `"80"` under a key of type `number`. -/
theorem checkType_shape_witness :
    ("number" ∈ recognizedTypes ∧
      hasProperty "port" (.obj [("port", .str "80")]) = .ok true ∧
      getProp (.obj [("port", .str "80")]) "port" = .ok (.str "80")) ∧
    checkType (.str "80") (.str "number") = .ok (specShapeMatches "number" (.str "80")) :=
  ⟨⟨by decide, rfl, rfl⟩,
   (checkType_shape "number" "port" (.obj [("port", .str "80")]) (.str "80") (by decide)
      rfl rfl).1⟩

/-- C6. Validating the empty document `{}` against the shipped schema does not succeed: the
first section, `modules`, is absent, and `data[key].forEach` is called on `undefined`. -/
theorem validateYAML_schema_empty_document :
    validateYAML schema (.obj []) = .error (.propertyOfNullish "forEach") := rfl

/-- C7. The absence of a key that is not required makes `validateYAML` fail when its entry has a
nested schema: for an array-typed entry `forEach` is called on `undefined`, for an object-typed
entry the nested schema is validated against `undefined`. -/
theorem validateYAML_absent_optional_key_fails :
    validateYAML (.obj [("items", .obj [("type", .str "array"), ("required", .bool false),
      ("schema", .obj [])])]) (.obj []) = .error (.propertyOfNullish "forEach") ∧
    validateYAML (.obj [("owner", .obj [("type", .str "object"), ("required", .bool false),
      ("schema", .obj [("name", .obj [("type", .str "string")])])])]) (.obj [])
      = .error (.inOperatorOnNonObject "name") := ⟨rfl, rfl⟩

/-- C8. A document whose `exceptions` element has neither `try` nor `catch`, or a `catch`
without `parameter` and `body`, is accepted by the shipped schema just like the document whose
`exceptions` list is empty. -/
theorem validateYAML_schema_exception_without_try :
    validateYAML schema (documentWithExceptions []) = .ok () ∧
    validateYAML schema (documentWithExceptions [.obj []]) = .ok () ∧
    validateYAML schema (documentWithExceptions [.obj [("try", .obj [("body", .arr [])])]])
      = .ok () ∧
    validateYAML schema (documentWithExceptions
      [.obj [("try", .obj [("body", .arr [])]), ("catch", .obj [])]]) = .ok () :=
  ⟨rfl, rfl, rfl, rfl⟩

/-- C9. Validating a non-empty list of strings under `css` or `libraries` against the shipped
entry of that section throws a `TypeError`: the element schema `{type: 'string'}` is read as
a schema with the key `type`, and `'type' in element` is evaluated on a string. -/
theorem validateYAML_css_string_list (first : String) (rest : List JSValue) :
    validateYAML (sectionSchema "css") (.obj [("css", .arr (.str first :: rest))])
      = .error (.inOperatorOnNonObject "type") ∧
    validateYAML (sectionSchema "libraries") (.obj [("libraries", .arr (.str first :: rest))])
      = .error (.inOperatorOnNonObject "type") ∧
    validateYAML (sectionSchema "css") (.obj [("css", .arr [.str "main.css"])])
      = .error (.inOperatorOnNonObject "type") :=
  ⟨rfl, rfl, rfl⟩

theorem checkType_unrecognized (value type : JSValue)
    (h : ∀ name ∈ recognizedTypes, type ≠ .str name) :
    checkType value type = .error (.unknownType type) := by
  unfold checkType
  split
  · exact absurd rfl (h "string" (by decide))
  · exact absurd rfl (h "number" (by decide))
  · exact absurd rfl (h "boolean" (by decide))
  · exact absurd rfl (h "array" (by decide))
  · exact absurd rfl (h "object" (by decide))
  · exact absurd rfl (h "any" (by decide))
  · rfl

theorem checkRequired_present (required : JSValue) (key : String) (data : JSValue)
    (h : hasProperty key data = .ok true) : checkRequired required key data = .ok () := by
  simp only [checkRequired, h, bind, Except.bind]
  cases truthy required <;> rfl

/-- C10 (counterexample). The schema `{a: {type: 'foo'}}` declares an unknown type, yet
validating the data `{}`, in which `a` is absent, succeeds. -/
theorem validateYAML_unknown_type_absent_key :
    "foo" ∉ recognizedTypes ∧
    validateYAML (.obj [("a", .obj [("type", .str "foo")])]) (.obj []) = .ok () :=
  ⟨by decide, rfl⟩

/-- C10 (amended). When the schema has an entry whose type is not a recognized one and the key
of that entry is present in the data mapping (`key in data` is true), processing the key throws
the unknown-type error, so `validateYAML` fails; it fails with that very error when the keys
before it are processed without failure, as when the entry is the first of the schema. The name
of an inherited member counts as present: `{toString: {type: 'foo'}}` fails on `{}`. -/
theorem validateYAML_unknown_type_present_key (entries fields : List (String × JSValue))
    (k : String) (entry type : JSValue) (hdecl : entries.lookup k = some entry)
    (htype : getProp entry "type" = .ok type)
    (hunknown : ∀ name ∈ recognizedTypes, type ≠ .str name)
    (hpresent : hasProperty k (.obj fields) = .ok true) :
    validateKey validateYAML (.obj entries) (.obj fields) k = .error (.unknownType type) ∧
    (∃ e, validateYAML (.obj entries) (.obj fields) = .error e) ∧
    (∀ others, validateYAML (.obj ((k, entry) :: others)) (.obj fields)
      = .error (.unknownType type)) ∧
    (∀ before after, objectKeys (.obj entries) = .ok (before ++ k :: after) →
      (∀ p ∈ before, validateKey validateYAML (.obj entries) (.obj fields) p = .ok ()) →
      validateYAML (.obj entries) (.obj fields) = .error (.unknownType type)) ∧
    (∀ value, fields.lookup k = some value → hasProperty k (.obj fields) = .ok true) ∧
    validateYAML (.obj [("toString", .obj [("type", .str "foo")])]) (.obj [])
      = .error (.unknownType (.str "foo")) := by
  obtain ⟨r, hr⟩ := getProp_ok_of_ok htype "required"
  obtain ⟨value, hvalue⟩ := getProp_obj_ok fields k
  have hreq : checkRequired r k (.obj fields) = .ok () :=
    checkRequired_present r k (.obj fields) hpresent
  have hcheck : checkPresent type k (.obj fields) = .error (.unknownType type) := by
    simp only [checkPresent, hpresent, hvalue, checkType_unrecognized _ type hunknown, bind,
      Except.bind]
    rfl
  have hkey : ∀ es : List (String × JSValue), es.lookup k = some entry →
      validateKey validateYAML (.obj es) (.obj fields) k = .error (.unknownType type) := by
    intro es hes
    simp only [validateKey, getProp_obj_own hes, htype, hr, hreq, hcheck, bind, Except.bind]
  refine ⟨hkey entries hdecl, ?_, ?_, ?_, ?_, rfl⟩
  · rw [validateYAML_unfold, objectKeys_obj]
    exact forEach_error_of_mem _ k _ (mem_keys_of_lookup entries hdecl) ⟨_, hkey entries hdecl⟩
  · intro others
    exact validateYAML_first_key_error k entry others _ _ (hkey _ (lookup_head k entry others))
  · intro before after hkeys hbefore
    rw [validateYAML_unfold, hkeys]
    exact forEach_first_error _ k after _ (hkey entries hdecl) before hbefore
  · intro value hv
    exact hasProperty_obj_own hv

/-- An instance for C10 as amended: the type `foo` with its key present in the data. -/
theorem validateYAML_unknown_type_present_key_witness :
    ([("a", JSValue.obj [("type", .str "foo")])].lookup "a" = some (.obj [("type", .str "foo")]) ∧
      getProp (.obj [("type", .str "foo")]) "type" = .ok (.str "foo") ∧
      (∀ name ∈ recognizedTypes, JSValue.str "foo" ≠ .str name) ∧
      hasProperty "a" (.obj [("a", .num 1)]) = .ok true) ∧
    validateKey validateYAML (.obj [("a", .obj [("type", .str "foo")])]) (.obj [("a", .num 1)]) "a"
      = .error (.unknownType (.str "foo")) :=
  ⟨⟨rfl, rfl, by simp [recognizedTypes], rfl⟩,
   (validateYAML_unknown_type_present_key [("a", .obj [("type", .str "foo")])] [("a", .num 1)] "a"
      (.obj [("type", .str "foo")]) (.str "foo") rfl rfl (by simp [recognizedTypes])
      rfl).1⟩

theorem validateKey_nested_object (schema data entry nested value : JSValue) (key : String)
    (hentry : getProp schema key = .ok entry)
    (htype : getProp entry "type" = .ok (.str "object"))
    (hnested : getProp entry "schema" = .ok nested) (htruthy : truthy nested = true)
    (hpresent : hasProperty key data = .ok true) (hvalue : getProp data key = .ok value)
    (hshape : checkType value (.str "object") = .ok true) :
    validateKey validateYAML schema data key = validateYAML nested value := by
  obtain ⟨r, hr⟩ := getProp_ok_of_ok htype "required"
  have hcheck : checkPresent (.str "object") key data = .ok () := by
    simp only [checkPresent, hpresent, hvalue, hshape, bind, Except.bind]
    rfl
  have hnest : validateNested validateYAML nested (.str "object") key data
      = validateYAML nested value := by
    simp [validateNested, htruthy, strictEqStr, hvalue, bind, Except.bind]
  simp only [validateKey, hentry, htype, hr, checkRequired_present r key data hpresent, hcheck,
    hnested, hnest, bind, Except.bind]

theorem validateKey_nested_array (schema data entry nested : JSValue) (items : List JSValue)
    (key : String) (hentry : getProp schema key = .ok entry)
    (htype : getProp entry "type" = .ok (.str "array"))
    (hnested : getProp entry "schema" = .ok nested) (htruthy : truthy nested = true)
    (hpresent : hasProperty key data = .ok true)
    (hvalue : getProp data key = .ok (.arr items)) :
    validateKey validateYAML schema data key
      = forEach items (fun item => validateYAML nested item) := by
  obtain ⟨r, hr⟩ := getProp_ok_of_ok htype "required"
  have hcheck : checkPresent (.str "array") key data = .ok () := by
    simp only [checkPresent, hpresent, hvalue, bind, Except.bind]
    rfl
  have hnest : validateNested validateYAML nested (.str "array") key data
      = forEach items (fun item => validateYAML nested item) := by
    simp [validateNested, htruthy, strictEqStr, hvalue, forEachItem, bind, Except.bind]
  simp only [validateKey, hentry, htype, hr, checkRequired_present r key data hpresent, hcheck,
    hnested, hnest, bind, Except.bind]

/-! ## Expression emitter -/

theorem parseExpressions_nil : parseExpressions [] = .ok [] := rfl

theorem parseExpressions_cons (e : Expr) (rest : List Expr) :
    parseExpressions (e :: rest) = (do
      let text ← parseExpression e
      let tail ← parseExpressions rest
      pure (text :: tail)) := rfl

theorem parseExpressions_append (xs ys : List Expr) :
    parseExpressions (xs ++ ys) = (do
      let a ← parseExpressions xs
      let b ← parseExpressions ys
      pure (a ++ b)) := by
  induction xs with
  | nil =>
    simp only [List.nil_append, parseExpressions_nil]
    cases parseExpressions ys <;> rfl
  | cons x rest ih =>
    simp only [List.cons_append, parseExpressions_cons, ih]
    cases parseExpression x <;> cases parseExpressions rest <;> cases parseExpressions ys <;> rfl

theorem Expr.type_unhandled (e : Expr) (h : e.type ∉ expressionCases) :
    ∃ type, e = .other type := by
  cases e <;> first | exact ⟨_, rfl⟩ | (exfalso; apply h; simp [Expr.type, expressionCases])

/-- C11. The expression emitter throws on the markup-element and markup-fragment kinds: the
cases call `parseJSX` and `parseJSXFragment`, which are not defined in `ExpressionParser.js`,
and the exception aborts every enclosing expression and statement. -/
theorem parseExpression_jsx_throws :
    parseExpression .jsxElement = .error (.referenceError "parseJSX") ∧
    parseExpression .jsxFragment = .error (.referenceError "parseJSXFragment") ∧
    Expr.jsxElement.type ∈ expressionCases ∧ Expr.jsxFragment.type ∈ expressionCases ∧
    parseExpression (.arrayExpression [.identifier "a", .jsxElement])
      = .error (.referenceError "parseJSX") ∧
    parseBody [.returnStatement .jsxFragment] 1 = .error (.referenceError "parseJSXFragment") :=
  ⟨rfl, rfl, by decide, by decide, rfl, rfl⟩

/-- C12. An expression node whose `type` is none of the `case` labels of `parseExpression` is
emitted as the empty text without an exception, and an enclosing list of operands, array
expression or call expression is emitted with the other operands around that empty text. -/
theorem parseExpression_unhandled (e : Expr) (h : e.type ∉ expressionCases) :
    parseExpression e = .ok "" ∧
    (∀ xs ys, parseExpressions (xs ++ [e] ++ ys) = (do
      let a ← parseExpressions xs
      let b ← parseExpressions ys
      pure (a ++ [""] ++ b))) ∧
    (∀ xs ys, parseExpression (.arrayExpression (xs ++ [e] ++ ys)) = (do
      let a ← parseExpressions xs
      let b ← parseExpressions ys
      pure ("[" ++ join (a ++ [""] ++ b) ", " ++ "]"))) ∧
    (∀ callee xs ys, parseExpression (.callExpression callee (xs ++ [e] ++ ys)) = (do
      let a ← parseExpressions xs
      let b ← parseExpressions ys
      let c ← parseExpression callee
      pure (c ++ "(" ++ join (a ++ [""] ++ b) ", " ++ ")"))) := by
  obtain ⟨type, rfl⟩ := Expr.type_unhandled e h
  have hlist : ∀ xs ys, parseExpressions (xs ++ [Expr.other type] ++ ys) = (do
      let a ← parseExpressions xs
      let b ← parseExpressions ys
      pure (a ++ [""] ++ b)) := by
    intro xs ys
    have hc : parseExpressions (Expr.other type :: ys)
        = (parseExpressions ys >>= fun tail => pure ("" :: tail)) := rfl
    rw [List.append_assoc, parseExpressions_append, List.singleton_append, hc]
    cases parseExpressions xs <;> cases parseExpressions ys <;>
      simp [bind, Except.bind, pure, Except.pure]
  refine ⟨rfl, hlist, ?_, ?_⟩
  · intro xs ys
    show (parseExpressions (xs ++ [Expr.other type] ++ ys) >>= fun t => _) = _
    rw [hlist]
    cases parseExpressions xs <;> cases parseExpressions ys <;> rfl
  · intro callee xs ys
    show (parseExpressions (xs ++ [Expr.other type] ++ ys) >>= fun t => _) = _
    rw [hlist]
    cases parseExpressions xs <;> cases parseExpressions ys <;> cases parseExpression callee <;> rfl

/-- An instance for C12: a node of the unknown kind `pipelineExpression`. -/
theorem parseExpression_unhandled_witness :
    (Expr.other "pipelineExpression").type ∉ expressionCases ∧
    parseExpression (.other "pipelineExpression") = .ok "" :=
  ⟨by decide, (parseExpression_unhandled (.other "pipelineExpression") (by decide)).1⟩

/-- C13. A template literal is not emitted as an alternation of quasis and expressions: the
quasis are joined by empty slots `${}` and the emitted expressions, joined by `}${`, follow
the last quasi. Quasis `a`, `b` with the expression `x` give `a${}bx` between backticks,
where the specification asks for `a${x}b`. -/
theorem parseExpression_templateLiteral_joins (quasis : List String) (expressions : List Expr) :
    parseExpression (.templateLiteral quasis expressions) =
      (parseExpressions expressions).map (fun texts =>
        "`" ++ join quasis "$\x7b\x7d" ++ join texts "\x7d$\x7b" ++ "`") ∧
    parseExpression (.templateLiteral ["a", "b"] [.identifier "x"]) = .ok "`a$\x7b\x7dbx`" ∧
    "`" ++ specInterleave ["a", "b"] ["x"] ++ "`" = "`a$\x7bx\x7db`" := by
  refine ⟨?_, rfl, rfl⟩
  show (parseExpressions expressions >>= fun texts => _) = _
  cases parseExpressions expressions <;> rfl

/-- C14. The body of a function-valued expression is emitted at level 2 and its closing brace
behind four spaces, whatever the level `N` of the statement that holds the expression: the
emitted text of the expression does not depend on `N`. At level 0 and at level 3 the body of an
arrow function stands behind eight spaces and its closing brace behind four. -/
theorem parseExpression_function_body_level (N : Nat) (expr : Expr) :
    parseBody [.expressionStatement expr] N =
      (parseExpression expr).map (fun text => indentation N ++ text ++ ";\n") ∧
    (∀ params body, parseExpression (.arrowFunctionExpression params body) =
      (parseBody body 2).map (fun nested =>
        "(" ++ join (params.map Param.toText) ", " ++ ") => \x7b\n" ++ nested ++ "    \x7d\n")) ∧
    (∀ id params body, parseExpression (.functionExpression id params body) = (do
      let texts ← parseExpressions params
      let nested ← parseBody body 2
      pure ("function " ++ id.getD "" ++ "(" ++ join texts ", " ++ ") \x7b\n" ++ nested
        ++ "    \x7d\n"))) ∧
    (∀ kind key params body, parseExpression (.methodDefinition kind key params body) = (do
      let texts ← parseExpressions params
      let name ← parseExpression key
      let nested ← parseBody body 2
      pure (kind ++ " " ++ name ++ "(" ++ join texts ", " ++ ") \x7b\n" ++ nested
        ++ "    \x7d\n"))) ∧
    (∀ kind key params body, parseExpression (.objectMethod kind key params body) = (do
      let texts ← parseExpressions params
      let name ← parseExpression key
      let nested ← parseBody body 2
      pure (kind ++ " " ++ name ++ "(" ++ join texts ", " ++ ") \x7b\n" ++ nested
        ++ "    \x7d\n"))) ∧
    (∀ kind key params body, parseExpression (.classMethod kind key params body) = (do
      let texts ← parseExpressions params
      let name ← parseExpression key
      let nested ← parseBody body 2
      pure (kind ++ " " ++ name ++ "(" ++ join texts ", " ++ ") \x7b\n" ++ nested
        ++ "    \x7d\n"))) ∧
    parseBody [.expressionStatement (.arrowFunctionExpression [] [.breakStatement])] 0
      = .ok "() => \x7b\n        break;\n    \x7d\n;\n" ∧
    parseBody [.expressionStatement (.arrowFunctionExpression [] [.breakStatement])] 3
      = .ok "            () => \x7b\n        break;\n    \x7d\n;\n" := by
  refine ⟨?_, ?_, ?_, ?_, ?_, ?_, rfl, rfl⟩
  · rw [parseBody_singleton]
    show (parseExpression expr >>= fun text => _) = _
    cases parseExpression expr <;> rfl
  · intro params body
    show (parseBody body 2 >>= fun nested => _) = _
    cases parseBody body 2 <;> rfl
  · intro id params body
    rfl
  · intro kind key params body
    rfl
  · intro kind key params body
    rfl
  · intro kind key params body
    rfl

/-- C15. An arrow function does not emit its parameters through the expression emitter: it
joins the elements of `params` as they are, so a parameter that is an expression node is
written `[object Object]`, while a function expression with the same parameter nodes emits
`(a, b)`. -/
theorem parseExpression_arrow_params :
    (∀ params body, parseExpression (.arrowFunctionExpression params body) =
      (parseBody body 2).map (fun nested =>
        "(" ++ join (params.map Param.toText) ", " ++ ") => \x7b\n" ++ nested ++ "    \x7d\n")) ∧
    (∀ e, Param.toText (.node e) = "[object Object]") ∧
    parseExpression (.arrowFunctionExpression
      [.node (.identifier "a"), .node (.identifier "b")] [])
      = .ok "([object Object], [object Object]) => \x7b\n    \x7d\n" ∧
    parseExpression (.functionExpression none [.identifier "a", .identifier "b"] [])
      = .ok "function (a, b) \x7b\n    \x7d\n" ∧
    parseExpression (.arrowFunctionExpression [.text "a", .text "b"] [])
      = .ok "(a, b) => \x7b\n    \x7d\n" := by
  refine ⟨?_, fun _ => rfl, rfl, rfl, rfl⟩
  intro params body
  show (parseBody body 2 >>= fun nested => _) = _
  cases parseBody body 2 <;> rfl

/-! ## Markup emitter -/

theorem backtrack_sound (chars : List Char) :
    ∀ (n : Nat) (inner : List Char), backtrack chars n = some inner →
      inner ≠ [] ∧ inner.length ≤ n ∧ chars = inner ++ [closeBrace, closeBrace] := by
  intro n
  induction n with
  | zero => intro inner h; simp [backtrack] at h
  | succ n ih =>
    intro inner h
    simp only [backtrack] at h
    split at h
    · rename_i hd
      have hd2 : chars.drop (n + 1) = [closeBrace, closeBrace] := by simpa using hd
      injection h with h
      subst h
      have hlen : chars.length = n + 1 + 2 := by
        have := congrArg List.length hd2
        simp only [List.length_drop, List.length_cons, List.length_nil] at this
        omega
      refine ⟨?_, ?_, ?_⟩
      · intro hnil
        have := congrArg List.length hnil
        simp only [List.length_take, List.length_nil] at this
        omega
      · simp only [List.length_take]; omega
      · rw [← hd2, List.take_append_drop]
    · obtain ⟨h1, h2, h3⟩ := ih inner h
      exact ⟨h1, by omega, h3⟩

theorem backtrack_complete (inner : List Char) (hne : inner ≠ []) :
    ∀ n, inner.length ≤ n →
      backtrack (inner ++ [closeBrace, closeBrace]) n = some inner := by
  intro n
  induction n with
  | zero =>
    intro h
    have : inner.length = 0 := by omega
    exact absurd (List.length_eq_zero.mp this) hne
  | succ n ih =>
    intro h
    simp only [backtrack]
    by_cases hn : inner.length = n + 1
    · have hd : (inner ++ [closeBrace, closeBrace]).drop (n + 1) = [closeBrace, closeBrace] := by
        rw [← hn, List.drop_left]
      have ht : (inner ++ [closeBrace, closeBrace]).take (n + 1) = inner := by
        rw [← hn, List.take_left]
      simp [hd, ht]
    · have hlen : ((inner ++ [closeBrace, closeBrace]).drop (n + 1)).length < 2 := by
        simp only [List.length_drop, List.length_append, List.length_cons, List.length_nil]
        omega
      have hd : ((inner ++ [closeBrace, closeBrace]).drop (n + 1) == [closeBrace, closeBrace])
          = false := by
        rw [beq_eq_false_iff_ne]
        intro heq
        rw [heq] at hlen
        simp at hlen
      rw [hd]
      simp only [Bool.false_eq_true, if_false]
      exact ih (by omega)

theorem dotRun_append (inner tail : List Char) (h : ∀ c ∈ inner, isLineTerminator c = false) :
    dotRun (inner ++ tail) = inner.length + dotRun tail := by
  induction inner with
  | nil => simp
  | cons c rest ih =>
    have hc : isLineTerminator c = false := h c (by simp)
    have ih2 := ih (fun d hd => h d (by simp [hd]))
    show dotRun (c :: (rest ++ tail)) = _
    simp only [dotRun, hc, Bool.false_eq_true, if_false, List.length_cons, ih2]
    omega

theorem matchDynamic_braces (e : String) (hne : e ≠ "")
    (hline : ∀ c ∈ e.data, isLineTerminator c = false) :
    matchDynamic ("\x7b\x7b" ++ e ++ "\x7d\x7d") = some e := by
  have hdata : ("\x7b\x7b" ++ e ++ "\x7d\x7d").data
      = openBrace :: openBrace :: (e.data ++ [closeBrace, closeBrace]) := by
    simp only [String.data_append]
    rfl
  have hne2 : e.data ≠ [] := by
    intro h
    apply hne
    apply String.ext
    rw [h]
  have hrun : e.data.length ≤ dotRun (e.data ++ [closeBrace, closeBrace]) := by
    rw [dotRun_append _ _ hline]
    omega
  unfold matchDynamic
  rw [hdata]
  simp only [beq_self_eq_true, Bool.and_self, if_true]
  rw [backtrack_complete e.data hne2 _ hrun]
  rfl

theorem matchDynamic_sound (s inner : String) (h : matchDynamic s = some inner) :
    s = "\x7b\x7b" ++ inner ++ "\x7d\x7d" ∧ inner ≠ "" := by
  unfold matchDynamic at h
  split at h
  · rename_i c₁ c₂ rest hdata
    split at h
    · rename_i hb
      simp only [Bool.and_eq_true, beq_iff_eq] at hb
      cases hbt : backtrack rest (dotRun rest) with
      | none => simp [hbt] at h
      | some cs =>
        simp only [hbt, Option.map_some', Option.some.injEq] at h
        subst h
        obtain ⟨h1, _, h3⟩ := backtrack_sound rest _ cs hbt
        constructor
        · apply String.ext
          simp only [String.data_append]
          rw [hdata, hb.1, hb.2, h3]
          rfl
        · intro hempty
          apply h1
          have := congrArg String.data hempty
          simpa using this
    · simp at h
  · simp at h

theorem parseJSX_singleton (stringify : JSValue → Option String) (element : MarkupNode)
    (level : Nat) :
    parseJSX stringify [element] level = parseElement stringify element level := by
  show parseElement stringify element level ++ "" = _
  exact String.append_empty _

theorem parseJSX_cons (stringify : JSValue → Option String) (element : MarkupNode)
    (rest : List MarkupNode) (level : Nat) :
    parseJSX stringify (element :: rest) level
      = parseElement stringify element level ++ parseJSX stringify rest level := rfl

theorem parseProps_append (stringify : JSValue → Option String)
    (ps qs : List (String × JSValue)) :
    parseProps stringify (ps ++ qs) = parseProps stringify ps ++ parseProps stringify qs := by
  induction ps with
  | nil => simp [parseProps]
  | cons p rest ih => simp [parseProps, ih, String.append_assoc]

theorem foldl_append_string (xs : List String) :
    ∀ acc : String, List.foldl (fun r s => r ++ s) acc xs
      = acc ++ List.foldl (fun r s => r ++ s) "" xs := by
  induction xs with
  | nil => intro acc; simp
  | cons x rest ih =>
    intro acc
    simp only [List.foldl_cons, String.empty_append]
    rw [ih (acc ++ x), ih x, String.append_assoc]

theorem String.join_cons_eq (x : String) (xs : List String) :
    String.join (x :: xs) = x ++ String.join xs := by
  simp only [String.join, List.foldl_cons, String.empty_append]
  exact foldl_append_string xs x

theorem parseProps_eq_join (stringify : JSValue → Option String)
    (props : List (String × JSValue)) :
    parseProps stringify props = String.join (props.map (parseProp stringify)) := by
  induction props with
  | nil => rfl
  | cons p rest ih => rw [List.map_cons, String.join_cons_eq, ← ih]; rfl

theorem JSValue.str_or_not (value : JSValue) :
    (∃ text, value = .str text) ∨ (∀ text, value ≠ .str text) := by
  cases value <;> first | exact Or.inl ⟨_, rfl⟩ | exact Or.inr (fun _ h => by cases h)

theorem parseProp_not_string (stringify : JSValue → Option String) (key : String)
    (value : JSValue) (h : ∀ text, value ≠ .str text) :
    parseProp stringify (key, value)
      = " " ++ propKey key ++ "=\x7b" ++ (stringify value).getD "undefined" ++ "\x7d" := by
  cases value <;> first | rfl | exact absurd rfl (h _)

theorem parseElement_element (stringify : JSValue → Option String) (type : String)
    (props : Option (List (String × JSValue)))
    (children : Option (List MarkupNode)) (level : Nat) (htype : type ≠ "") :
    parseElement stringify (.element type props children) level =
      (jsxIndentation level ++ "<" ++ type ++ (props.map (parseProps stringify)).getD "") ++
        (match children with
         | some children =>
           if children.length > 0 then
             ">\n" ++ parseJSX stringify children (level + 1) ++ jsxIndentation level ++ "</"
               ++ type ++ ">\n"
           else " />\n"
         | none => " />\n") := by
  have ht : (type != "") = true := by simpa using htype
  cases props <;> cases children <;>
    simp only [parseElement, ht, if_true, Option.map_some', Option.map_none', Option.getD_some,
      Option.getD_none, String.append_empty] <;>
    (try split) <;> simp only [String.append_assoc]

theorem strRepeat_space (n : Nat) : strRepeat " " n = String.mk (List.replicate n ' ') := by
  induction n with
  | zero => rfl
  | succ n ih =>
    rw [strRepeat, ih]
    apply String.ext
    simp only [String.data_append, List.replicate_succ]
    rfl

theorem jsxIndentation_data (level : Nat) :
    jsxIndentation level = String.mk (List.replicate (2 * level) ' ') := by
  unfold jsxIndentation
  rw [strRepeat_space, Nat.mul_comm]

/-- C16. Attribute renaming: the attribute of a tagged markup node is emitted under the name
`className` for the key `class`, under `htmlFor` for the key `for`, and under its key
otherwise; the props `class: "x"`, `for: "y"` are emitted as `className="x" htmlFor="y"`,
and the emitted tag contains neither `class=` nor `for=`. -/
theorem parseJSX_attribute_renaming (stringify : JSValue → Option String) :
    propKey "class" = "className" ∧ propKey "for" = "htmlFor" ∧
    (∀ key, key ≠ "class" → key ≠ "for" → propKey key = key) ∧
    (∀ key value, ∃ text, parseProp stringify (key, value) = " " ++ propKey key ++ "=" ++ text) ∧
    (∀ type props children level, type ≠ "" →
      ∃ tail, parseJSX stringify [.element type (some props) children] level
        = jsxIndentation level ++ "<" ++ type ++ String.join (props.map (parseProp stringify))
          ++ tail) ∧
    parseJSX stringify [.element "div" (some [("class", .str "x"), ("for", .str "y")]) none] 0
      = "<div className=\"x\" htmlFor=\"y\" />\n" ∧
    ¬ ("class=".data <:+:
      (parseJSX stringify
        [.element "div" (some [("class", .str "x"), ("for", .str "y")]) none] 0).data) ∧
    ¬ ("for=".data <:+:
      (parseJSX stringify
        [.element "div" (some [("class", .str "x"), ("for", .str "y")]) none] 0).data) := by
  have hdiv : parseJSX stringify
      [.element "div" (some [("class", .str "x"), ("for", .str "y")]) none] 0
      = "<div className=\"x\" htmlFor=\"y\" />\n" := rfl
  refine ⟨rfl, rfl, ?_, ?_, ?_, hdiv, by rw [hdiv]; decide, by rw [hdiv]; decide⟩
  · intro key h1 h2
    simp [propKey, h1, h2]
  · intro key value
    have hb : "=\x7b" = "=" ++ "\x7b" := rfl
    have hq : "=\"" = "=" ++ "\"" := rfl
    rcases value.str_or_not with ⟨text, rfl⟩ | hns
    · cases hm : matchDynamic text with
      | some expr =>
        exact ⟨"\x7b" ++ expr ++ "\x7d", by simp only [parseProp, hm, hb, String.append_assoc]⟩
      | none =>
        exact ⟨"\"" ++ text ++ "\"", by simp only [parseProp, hm, hq, String.append_assoc]⟩
    · exact ⟨"\x7b" ++ (stringify value).getD "undefined" ++ "\x7d",
        by rw [parseProp_not_string stringify key value hns]
           simp only [hb, String.append_assoc]⟩
  · intro type props children level htype
    rw [parseJSX_singleton, parseElement_element _ _ _ _ _ htype, ← parseProps_eq_join]
    exact ⟨_, rfl⟩

/-- C17. Dynamic-expression detection on string leaves: the indentation of level `L` is
`2 * L` spaces; for a non-empty text `e` without line terminators the leaf `{{e}}` at level `L`
is emitted as the line of the indentation, `{`, `e` and `}`; a string leaf that is not of the
form `{{...}}` is emitted as the line of the indentation and the raw text, unescaped;
`{{user.name}}` gives `{user.name}` and `Hello` gives `Hello`, behind four spaces at level 2 and
behind two spaces at level 1. -/
theorem parseJSX_string_leaf (stringify : JSValue → Option String) (L : Nat) :
    jsxIndentation L = String.mk (List.replicate (2 * L) ' ') ∧
    (∀ e : String, e ≠ "" → (∀ c ∈ e.data, isLineTerminator c = false) →
      parseJSX stringify [.text ("\x7b\x7b" ++ e ++ "\x7d\x7d")] L
        = jsxIndentation L ++ "\x7b" ++ e ++ "\x7d" ++ "\n") ∧
    (∀ s : String, (¬ ∃ inner, s = "\x7b\x7b" ++ inner ++ "\x7d\x7d") →
      parseJSX stringify [.text s] L = jsxIndentation L ++ s ++ "\n") ∧
    parseJSX stringify [.text "\x7b\x7buser.name\x7d\x7d"] 0 = "\x7buser.name\x7d\n" ∧
    parseJSX stringify [.text "Hello"] 0 = "Hello\n" ∧
    parseJSX stringify [.text "\x7b\x7buser.name\x7d\x7d"] 2 = "    \x7buser.name\x7d\n" ∧
    parseJSX stringify [.text "Hello"] 1 = "  Hello\n" ∧
    parseJSX stringify [.text "a < b && \"c\""] 3 = "      a < b && \"c\"\n" ∧
    parseJSX stringify [.text "Hello", .text "\x7b\x7bx\x7d\x7d"] 1 = "  Hello\n  \x7bx\x7d\n" := by
  refine ⟨jsxIndentation_data L, ?_, ?_, rfl, rfl, rfl, rfl, rfl, rfl⟩
  · intro e hne hline
    rw [parseJSX_singleton]
    simp only [parseElement, matchDynamic_braces e hne hline]
    simp only [String.append_assoc]
    rfl
  · intro s hs
    rw [parseJSX_singleton]
    cases hm : matchDynamic s with
    | some inner => exact absurd ⟨inner, (matchDynamic_sound s inner hm).1⟩ hs
    | none => simp only [parseElement, hm]

/-- An instance for C17: the leaf `{{count}}` at level 2 is emitted behind four spaces. -/
theorem parseJSX_string_leaf_witness :
    parseJSX (fun _ => none) [.text ("\x7b\x7b" ++ "count" ++ "\x7d\x7d")] 2
      = "    \x7bcount\x7d\n" :=
  (parseJSX_string_leaf (fun _ => none) 2).2.1 "count" (by decide) (by decide)

/-- C18. Attribute emission: the text between the tag name and the tag end is the
concatenation, in the order of `props`, of one fragment per attribute: the name then
`={expr}` for a string value that matches the dynamic-expression pattern, the name then the
quoted value for any other string, and the name then `={json}` for a value that is not a
string, where `json` is what `JSON.stringify` returns for the value (and `undefined` when it
returns none). -/
theorem parseJSX_attribute_fragments (stringify : JSValue → Option String) :
    (∀ key text expr, matchDynamic text = some expr →
      parseProp stringify (key, .str text) = " " ++ propKey key ++ "=\x7b" ++ expr ++ "\x7d") ∧
    (∀ key text, matchDynamic text = none →
      parseProp stringify (key, .str text) = " " ++ propKey key ++ "=\"" ++ text ++ "\"") ∧
    (∀ key value json, (∀ text, value ≠ .str text) → stringify value = some json →
      parseProp stringify (key, value) = " " ++ propKey key ++ "=\x7b" ++ json ++ "\x7d") ∧
    (∀ key value, (∀ text, value ≠ .str text) → stringify value = none →
      parseProp stringify (key, value) = " " ++ propKey key ++ "=\x7bundefined\x7d") ∧
    (∀ type props level, type ≠ "" →
      parseJSX stringify [.element type (some props) none] level
        = jsxIndentation level ++ "<" ++ type ++ String.join (props.map (parseProp stringify))
          ++ " />\n") ∧
    (∀ type props children level, type ≠ "" → children ≠ [] →
      parseJSX stringify [.element type (some props) (some children)] level
        = jsxIndentation level ++ "<" ++ type ++ String.join (props.map (parseProp stringify))
          ++ ">\n" ++ parseJSX stringify children (level + 1) ++ jsxIndentation level ++ "</"
          ++ type ++ ">\n") ∧
    (∀ first second,
      String.join ([first, second].map (parseProp stringify))
        = parseProp stringify first ++ parseProp stringify second) ∧
    (stringify (.num 20) = some "20" → stringify (.bool true) = some "true" →
      parseJSX stringify [.element "input" (some [("value", .str "\x7b\x7bname\x7d\x7d"),
        ("type", .str "text"), ("size", .num 20), ("disabled", .bool true)]) none] 0
        = "<input value=\x7bname\x7d type=\"text\" size=\x7b20\x7d disabled=\x7btrue\x7d />\n") ∧
    (stringify (.arr [.num 1, .str "a"]) = some "[1,\"a\"]" →
      stringify (.obj [("color", .str "red")]) = some "\x7b\"color\":\"red\"\x7d" →
      stringify (.num (.finite 3 (-1))) = some "1.5" → stringify .null = some "null" →
      parseJSX stringify [.element "Chart" (some [("style", .obj [("color", .str "red")]),
        ("data", .arr [.num 1, .str "a"]), ("ratio", .num (.finite 3 (-1))),
        ("label", .null)]) none] 1
        = "  <Chart style=\x7b\x7b\"color\":\"red\"\x7d\x7d data=\x7b[1,\"a\"]\x7d ratio=\x7b1.5\x7d label=\x7bnull\x7d />\n") ∧
    parseJSX stringify [.element "a" (some [("href", .str "/x?a=1&b=\"2\""),
      ("class", .str "\x7b\x7bcls\x7d\x7d")]) none] 0
      = "<a href=\"/x?a=1&b=\"2\"\" className=\x7bcls\x7d />\n" := by
  refine ⟨?_, ?_, ?_, ?_, ?_, ?_, ?_, ?_, ?_, rfl⟩
  · intro key text expr hm
    simp only [parseProp, hm]
  · intro key text hm
    simp only [parseProp, hm]
  · intro key value json hns hjson
    rw [parseProp_not_string stringify key value hns, hjson]
    rfl
  · intro key value hns hjson
    rw [parseProp_not_string stringify key value hns, hjson]
    simp only [Option.getD_none, String.append_assoc]
    rfl
  · intro type props level htype
    rw [parseJSX_singleton, parseElement_element _ _ _ _ _ htype, ← parseProps_eq_join]
    rfl
  · intro type props children level htype hchildren
    have hlen : children.length > 0 := List.length_pos.mpr hchildren
    rw [parseJSX_singleton, parseElement_element _ _ _ _ _ htype, ← parseProps_eq_join]
    simp only [hlen, if_true, Option.map_some', Option.getD_some, String.append_assoc]
  · intro first second
    rw [← parseProps_eq_join]
    show parseProp stringify first ++ (parseProp stringify second ++ "") = _
    rw [String.append_empty]
  · intro h20 htrue
    rw [parseJSX_singleton, parseElement_element _ _ _ _ _ (by decide)]
    simp only [Option.map_some', Option.getD_some, parseProps, parseProp, h20, htrue]
    rfl
  · intro harr hobj hnum hnull
    rw [parseJSX_singleton, parseElement_element _ _ _ _ _ (by decide)]
    simp only [Option.map_some', Option.getD_some, parseProps, parseProp, harr, hobj, hnum,
      hnull]
    rfl

/-- C19. Children versus self-closing: the indentation of level `L` is `2 * L` spaces; a
tagged markup node with a non-empty list of children is emitted as its opening tag ending in
`>`, then exactly its children emitted at level `L + 1`, then the closing tag at the
indentation of level `L`; without children, or with an empty list, it is emitted as one
self-closing tag that ends with one space and `/>`; `br` at level 0 gives `<br />`, and a
`ul` with one `li` at level 1 gives three lines behind two, four and two spaces. -/
theorem parseJSX_children_or_self_closing (stringify : JSValue → Option String) (type : String)
    (props : Option (List (String × JSValue))) (L : Nat) (htype : type ≠ "") :
    jsxIndentation L = String.mk (List.replicate (2 * L) ' ') ∧
    (∀ children, children ≠ [] →
      parseJSX stringify [.element type props (some children)] L
        = jsxIndentation L ++ "<" ++ type ++ (props.map (parseProps stringify)).getD "" ++ ">\n"
          ++ parseJSX stringify children (L + 1) ++ jsxIndentation L ++ "</" ++ type ++ ">\n") ∧
    parseJSX stringify [.element type props none] L
      = jsxIndentation L ++ "<" ++ type ++ (props.map (parseProps stringify)).getD "" ++ " />\n" ∧
    parseJSX stringify [.element type props (some [])] L
      = jsxIndentation L ++ "<" ++ type ++ (props.map (parseProps stringify)).getD "" ++ " />\n" ∧
    parseJSX stringify [.element "br" none none] 0 = "<br />\n" ∧
    parseJSX stringify [.element "br" none none] 2 = "    <br />\n" ∧
    parseJSX stringify [.element "ul" none (some [.element "li" none none])] 1
      = "  <ul>\n    <li />\n  </ul>\n" ∧
    parseJSX stringify [.element "div" none (some [.text "Hello",
      .element "p" none (some [.text "\x7b\x7bx\x7d\x7d"])])] 0
      = "<div>\n  Hello\n  <p>\n    \x7bx\x7d\n  </p>\n</div>\n" := by
  refine ⟨jsxIndentation_data L, ?_, ?_, ?_, rfl, rfl, rfl, rfl⟩
  · intro children hchildren
    have hlen : children.length > 0 := List.length_pos.mpr hchildren
    rw [parseJSX_singleton, parseElement_element _ _ _ _ _ htype]
    simp only [hlen, if_true, String.append_assoc]
  · rw [parseJSX_singleton, parseElement_element _ _ _ _ _ htype]
  · rw [parseJSX_singleton, parseElement_element _ _ _ _ _ htype]
    rfl

/-- An instance for C19: a `ul` with one `li` child at level 1; the opening and the closing
tag stand behind two spaces, the child behind four. -/
theorem parseJSX_children_or_self_closing_witness :
    "ul" ≠ "" ∧
    parseJSX (fun _ => none) [.element "ul" none (some [.element "li" none none])] 1
      = "  <ul>\n    <li />\n  </ul>\n" :=
  ⟨by decide, (parseJSX_children_or_self_closing (fun _ => none) "ul" none 1 (by decide)).2.1
    [.element "li" none none] (by simp)⟩

/-! ## Reported failures -/

/-- C20 (counterexample). The same nested violation, a missing required `name`, is reported
by the same failure at index 0 and at index 1 of `users`, and under the parent key `users` and
under the parent key `groups`. -/
theorem validateYAML_same_failure_at_two_places :
    validateYAML
      (.obj [("users", .obj [("type", .str "array"),
        ("schema", .obj [("name", .obj [("type", .str "string"), ("required", .bool true)])])])])
      (.obj [("users", .arr [.obj [], .obj [("name", .str "x")]])])
      = .error (.missingRequired "name") ∧
    validateYAML
      (.obj [("users", .obj [("type", .str "array"),
        ("schema", .obj [("name", .obj [("type", .str "string"), ("required", .bool true)])])])])
      (.obj [("users", .arr [.obj [("name", .str "x")], .obj []])])
      = .error (.missingRequired "name") ∧
    validateYAML
      (.obj [("users", .obj [("type", .str "array"),
        ("schema", .obj [("name", .obj [("type", .str "string"), ("required", .bool true)])])]),
       ("groups", .obj [("type", .str "array"),
        ("schema", .obj [("name", .obj [("type", .str "string"), ("required", .bool true)])])])])
      (.obj [("users", .arr [.obj []]), ("groups", .arr [])])
      = .error (.missingRequired "name") ∧
    validateYAML
      (.obj [("users", .obj [("type", .str "array"),
        ("schema", .obj [("name", .obj [("type", .str "string"), ("required", .bool true)])])]),
       ("groups", .obj [("type", .str "array"),
        ("schema", .obj [("name", .obj [("type", .str "string"), ("required", .bool true)])])])])
      (.obj [("users", .arr []), ("groups", .arr [.obj []])])
      = .error (.missingRequired "name") :=
  ⟨rfl, rfl, rfl, rfl⟩

/-- C20 (amended). When validation fails inside an element of an array-typed field `k`, the
reported failure is the failure of validating that element against the nested schema: it is
the same whatever the key `k` and whatever the index of the element, that is, however many
valid elements come before it. -/
theorem validateYAML_array_element_failure (k : String) (nested item : JSValue)
    (pre post : List JSValue) (e : JSError) (hnested : truthy nested = true)
    (hpre : ∀ p ∈ pre, validateYAML nested p = .ok ())
    (hitem : validateYAML nested item = .error e) :
    validateYAML (.obj [(k, .obj [("type", .str "array"), ("schema", nested)])])
      (.obj [(k, .arr (pre ++ item :: post))]) = .error e := by
  apply validateYAML_first_key_error
  have hitems : forEach (pre ++ item :: post) (fun item => validateYAML nested item)
      = .error e := forEach_first_error _ item post e hitem pre hpre
  rw [validateKey_nested_array _ _ (.obj [("type", .str "array"), ("schema", nested)]) nested
    (pre ++ item :: post) k (getProp_obj_own (lookup_head k _ [])) rfl rfl hnested
    (hasProperty_obj_own (lookup_head k _ [])) (getProp_obj_own (lookup_head k _ []))]
  exact hitems

/-- An instance for C20 as amended: the element without `name` at index 1 of `tags`. -/
theorem validateYAML_array_element_failure_witness :
    (truthy (.obj [("name", .obj [("type", .str "string"), ("required", .bool true)])]) = true ∧
      validateYAML (.obj [("name", .obj [("type", .str "string"), ("required", .bool true)])])
        (.obj []) = .error (.missingRequired "name")) ∧
    validateYAML
      (.obj [("tags", .obj [("type", .str "array"),
        ("schema", .obj [("name", .obj [("type", .str "string"), ("required", .bool true)])])])])
      (.obj [("tags", .arr ([.obj [("name", .str "a")]] ++ .obj [] :: []))])
      = .error (.missingRequired "name") :=
  ⟨⟨rfl, rfl⟩,
   validateYAML_array_element_failure "tags"
     (.obj [("name", .obj [("type", .str "string"), ("required", .bool true)])]) (.obj [])
     [.obj [("name", .str "a")]] [] (.missingRequired "name") rfl
     (by intro p hp; simp only [List.mem_singleton] at hp; subst hp; rfl) rfl⟩

/-! ## Operators, specifiers and control statements -/

/-- C21 (counterexample). A unary expression whose flag is false is emitted with the operator
in front of the operand: `!` with the operand `a` gives `!a`, not `a!`. -/
theorem parseExpression_unary_postfix_ignored :
    parseExpression (.unaryExpression "!" false (.identifier "a")) = .ok "!a" ∧
    parseExpression (.unaryExpression "!" false (.identifier "a")) ≠ .ok ("a" ++ "!") := by
  refine ⟨rfl, ?_⟩
  intro h
  have h2 : (Except.ok "!a" : Except JSError String) = .ok ("a" ++ "!") := h
  injection h2 with h3
  exact absurd h3 (by decide)

/-- C21 (amended). A unary expression is emitted as its operator immediately followed by its
operand, whether its flag is true or false: the flag is not read. -/
theorem parseExpression_unary (operator : String) (pfx : Bool) (argument : Expr) :
    parseExpression (.unaryExpression operator pfx argument) =
      (parseExpression argument).map (fun text => operator ++ text) := by
  show (parseExpression argument >>= fun text => _) = _
  cases parseExpression argument <;> rfl

/-- C22. Update expressions respect the flag: the operator comes immediately before the
emitted operand when the flag is true and immediately after it when the flag is false, as in
`++i` and `i++`. -/
theorem parseExpression_update (operator : String) (argument : Expr) :
    parseExpression (.updateExpression operator true argument) =
      (parseExpression argument).map (fun text => operator ++ text) ∧
    parseExpression (.updateExpression operator false argument) =
      (parseExpression argument).map (fun text => text ++ operator) ∧
    parseExpression (.updateExpression "++" true (.identifier "i")) = .ok "++i" ∧
    parseExpression (.updateExpression "++" false (.identifier "i")) = .ok "i++" := by
  refine ⟨?_, ?_, rfl, rfl⟩
  · show (parseExpression argument >>= fun text => _) = _
    cases parseExpression argument <;> rfl
  · show (parseExpression argument >>= fun text => _) = _
    cases parseExpression argument <;> rfl

/-- C23. Import and export specifiers use the aliasing form only when the names differ: the
specifier of an import is emitted as the single name when the imported and the local name are
equal and as `imported as local` otherwise; the specifier of an export as the single name when
the exported and the local name are equal and as `local as exported` otherwise. -/
theorem parseExpression_specifiers (outer localName : String) :
    (outer = localName → parseExpression (.importSpecifier outer localName) = .ok localName) ∧
    (outer ≠ localName →
      parseExpression (.importSpecifier outer localName) = .ok (outer ++ " as " ++ localName)) ∧
    (outer = localName → parseExpression (.exportSpecifier outer localName) = .ok localName) ∧
    (outer ≠ localName →
      parseExpression (.exportSpecifier outer localName) = .ok (localName ++ " as " ++ outer)) ∧
    parseExpression (.importSpecifier "useState" "useState") = .ok "useState" ∧
    parseExpression (.importSpecifier "default" "React") = .ok "default as React" ∧
    parseExpression (.exportSpecifier "main" "run") = .ok "run as main" := by
  have hi : parseExpression (.importSpecifier outer localName)
      = .ok (if outer == localName then localName else outer ++ " as " ++ localName) := rfl
  have he : parseExpression (.exportSpecifier outer localName)
      = .ok (if outer == localName then localName else localName ++ " as " ++ outer) := rfl
  refine ⟨?_, ?_, ?_, ?_, rfl, rfl, rfl⟩
  · intro h; rw [hi]; simp [h]
  · intro h; rw [hi]; simp [h]
  · intro h; rw [he]; simp [h]
  · intro h; rw [he]; simp [h]

/-- C24. Binary, logical and assignment expressions are emitted as the left operand, a space,
the operator text of the node as it is, a space, and the right operand; the three kinds emit
the same text for the same fields. -/
theorem parseExpression_infix (left : Expr) (operator : String) (right : Expr) :
    parseExpression (.binaryExpression left operator right) = (do
      let l ← parseExpression left
      let r ← parseExpression right
      pure (l ++ " " ++ operator ++ " " ++ r)) ∧
    parseExpression (.logicalExpression left operator right)
      = parseExpression (.binaryExpression left operator right) ∧
    parseExpression (.assignmentExpression left operator right)
      = parseExpression (.binaryExpression left operator right) ∧
    parseExpression (.binaryExpression (.identifier "a") "<=>" (.literal "1")) = .ok "a <=> 1" :=
  ⟨rfl, rfl, rfl, rfl⟩

/-- C26. An `if` statement with neither consequent nor alternate is emitted as an empty block;
an `if` statement with an alternate is emitted as the text of the same statement without the
alternate followed by the else block, and without an alternate the block of the consequent is
all that is emitted: no else block. -/
theorem parseBody_if_else (N : Nat) (test : String) :
    parseBody [.ifStatement test none none] N
      = .ok (indentation N ++ "if (" ++ test ++ ") \x7b\n" ++ indentation N ++ "\x7d\n") ∧
    (∀ consequent alternate,
      parseBody [.ifStatement test consequent (some alternate)] N = (do
        let head ← parseBody [.ifStatement test consequent none] N
        let nested ← parseBody alternate (N + 1)
        pure (head ++ (indentation N ++ "else \x7b\n" ++ nested ++ indentation N ++ "\x7d\n")))) ∧
    (∀ body, parseBody [.ifStatement test (some body) none] N =
      (parseBody body (N + 1)).map (fun nested =>
        indentation N ++ "if (" ++ test ++ ") \x7b\n" ++ nested ++ indentation N ++ "\x7d\n")) ∧
    parseBody [.ifStatement "ok" none (some [.breakStatement])] 0
      = .ok "if (ok) \x7b\n\x7d\nelse \x7b\n    break;\n\x7d\n" := by
  have hnone : parseStatement (.ifStatement test none none) N
      = .ok (indentation N ++ "if (" ++ test ++ ") \x7b\n" ++ indentation N ++ "\x7d\n") := rfl
  refine ⟨by rw [parseBody_singleton, hnone], ?_, ?_, rfl⟩
  · intro consequent alternate
    rw [parseBody_singleton, parseBody_singleton]
    cases consequent with
    | none =>
      rw [hnone]
      show (parseBody alternate (N + 1) >>= fun nested => _) = _
      cases parseBody alternate (N + 1) <;>
        simp [bind, Except.bind, pure, Except.pure, String.append_assoc]
    | some body =>
      show (parseBody body (N + 1) >>= fun nested => _)
        = (parseBody body (N + 1) >>= fun nested => _) >>= _
      cases parseBody body (N + 1) with
      | error e => rfl
      | ok nested =>
        show (parseBody alternate (N + 1) >>= fun other => _) = _
        cases parseBody alternate (N + 1) <;>
          simp [bind, Except.bind, pure, Except.pure, String.append_assoc]
  · intro body
    rw [parseBody_singleton]
    show (parseBody body (N + 1) >>= fun nested => _) = _
    cases parseBody body (N + 1) <;> rfl

theorem parseCases_nil (level : Nat) : parseCases [] level = .ok "" := rfl

theorem parseCases_cons (test : Expr) (consequent : List Stmt) (rest : List (Expr × List Stmt))
    (level : Nat) :
    parseCases ((test, consequent) :: rest) level = (do
      let text ← parseExpression test
      let nested ← parseBody consequent (level + 1)
      let tail ← parseCases rest level
      pure (indentation level ++ "case " ++ text ++ ":\n" ++ nested ++ tail)) := rfl

theorem parseCases_of_results (N : Nat) :
    ∀ (cases : List (Expr × List Stmt)) (results : List (String × String)),
      List.Forall₂ (fun c r => parseExpression c.1 = .ok r.1 ∧ parseBody c.2 (N + 1) = .ok r.2)
        cases results →
      parseCases cases N = .ok (String.join (results.map (fun r =>
        indentation N ++ "case " ++ r.1 ++ ":\n" ++ r.2))) := by
  intro cases results h
  induction h with
  | nil => rfl
  | @cons c r cs rs hhead _ ih =>
    obtain ⟨test, consequent⟩ := c
    rw [parseCases_cons, hhead.1, hhead.2, ih, List.map_cons, String.join_cons_eq]
    rfl

/-- C27. A `switch` statement at level `N` is emitted as its header behind the indentation of
`N`, then for each case in order one line `case test:` behind the indentation of `N` followed
by exactly the statements of the case emitted at level `N + 1`, then the closing brace behind
the indentation of `N`: one case line for each of the `k` cases. -/
theorem parseBody_switch (N : Nat) (discriminant : Expr) (cases : List (Expr × List Stmt)) :
    parseBody [.switchStatement discriminant cases] N = (do
      let subject ← parseExpression discriminant
      let body ← parseCases cases N
      pure (indentation N ++ "switch (" ++ subject ++ ") \x7b\n" ++ body ++ indentation N
        ++ "\x7d\n")) ∧
    (∀ test consequent rest, parseCases ((test, consequent) :: rest) N = (do
      let text ← parseExpression test
      let nested ← parseBody consequent (N + 1)
      let tail ← parseCases rest N
      pure (indentation N ++ "case " ++ text ++ ":\n" ++ nested ++ tail))) ∧
    parseCases [] N = .ok "" ∧
    (∀ results : List (String × String),
      List.Forall₂ (fun c r => parseExpression c.1 = .ok r.1 ∧ parseBody c.2 (N + 1) = .ok r.2)
        cases results →
      parseCases cases N = .ok (String.join (results.map (fun r =>
        indentation N ++ "case " ++ r.1 ++ ":\n" ++ r.2))) ∧
      (results.map (fun r => indentation N ++ "case " ++ r.1 ++ ":\n" ++ r.2)).length
        = cases.length) ∧
    parseBody [.switchStatement (.identifier "x")
      [(.literal "1", [.breakStatement]), (.literal "2", [])]] 1
      = .ok "    switch (x) \x7b\n    case 1:\n        break;\n    case 2:\n    \x7d\n" := by
  refine ⟨?_, fun _ _ _ => rfl, rfl, ?_, rfl⟩
  · rw [parseBody_singleton]
    show (parseExpression discriminant >>= fun subject => _) = _
    cases parseExpression discriminant with
    | error e => rfl
    | ok subject =>
      show (parseCases cases N >>= fun body => _) = _
      cases parseCases cases N <;> rfl
  · intro results h
    refine ⟨parseCases_of_results N cases results h, ?_⟩
    rw [List.length_map]
    exact h.length_eq.symm

/-- C28. A label does not introduce indentation: a labeled statement at level `N` is emitted
as the line of the label behind the indentation of `N` followed by its body statement emitted
as a one-element sequence at the same level `N`. -/
theorem parseBody_labeled (N : Nat) (label : String) (body : Stmt) :
    parseBody [.labeledStatement label body] N =
      (parseBody [body] N).map (fun text => indentation N ++ label ++ ":\n" ++ text) ∧
    parseBody [.labeledStatement "outer" (.whileStatement "true" [.breakStatement])] 1
      = .ok "    outer:\n    while (true) \x7b\n        break;\n    \x7d\n" := by
  refine ⟨?_, rfl⟩
  rw [parseBody_singleton, parseBody_singleton]
  show (parseStatement body N >>= fun text => _) = _
  cases parseStatement body N <;> rfl

/-! ## Extent of the dynamic-expression pattern -/

theorem dotRun_prefix_clean :
    ∀ (inner tail : List Char), inner.length ≤ dotRun (inner ++ tail) →
      ∀ c ∈ inner, isLineTerminator c = false := by
  intro inner
  induction inner with
  | nil => intro _ _ c hc; simp at hc
  | cons d rest ih =>
    intro tail hlen c hc
    have hrun : dotRun (d :: (rest ++ tail))
        = if isLineTerminator d then 0 else dotRun (rest ++ tail) + 1 := rfl
    have hlen2 : rest.length + 1 ≤ dotRun (d :: (rest ++ tail)) := by simpa using hlen
    rw [hrun] at hlen2
    cases hd : isLineTerminator d with
    | true => simp [hd] at hlen2
    | false =>
      simp only [hd, Bool.false_eq_true, if_false] at hlen2
      rcases List.mem_cons.mp hc with rfl | hmem
      · exact hd
      · exact ih tail (by omega) c hmem

theorem matchDynamic_clean (s inner : String) (h : matchDynamic s = some inner) :
    ∀ c ∈ inner.data, isLineTerminator c = false := by
  unfold matchDynamic at h
  split at h
  · rename_i c₁ c₂ rest hdata
    split at h
    · cases hbt : backtrack rest (dotRun rest) with
      | none => simp [hbt] at h
      | some cs =>
        simp only [hbt, Option.map_some', Option.some.injEq] at h
        subst h
        obtain ⟨_, h2, h3⟩ := backtrack_sound rest _ cs hbt
        have h4 : cs.length ≤ dotRun (cs ++ [closeBrace, closeBrace]) := by
          rw [← h3]; exact h2
        exact dotRun_prefix_clean cs _ h4
    · simp at h
  · simp at h

theorem braces_cancel (a b : String)
    (h : "\x7b\x7b" ++ a ++ "\x7d\x7d" = "\x7b\x7b" ++ b ++ "\x7d\x7d") : a = b := by
  have hd := congrArg String.data h
  simp only [String.data_append] at hd
  have h1 := List.append_cancel_right hd
  have h2 := List.append_cancel_left h1
  exact String.ext h2

theorem matchDynamic_iff (s inner : String) :
    matchDynamic s = some inner ↔
      s = "\x7b\x7b" ++ inner ++ "\x7d\x7d" ∧ inner ≠ "" ∧
        ∀ c ∈ inner.data, isLineTerminator c = false := by
  constructor
  · intro h
    exact ⟨(matchDynamic_sound s inner h).1, (matchDynamic_sound s inner h).2,
      matchDynamic_clean s inner h⟩
  · rintro ⟨rfl, hne, hclean⟩
    exact matchDynamic_braces inner hne hclean

theorem matchDynamic_none_iff (s : String) :
    matchDynamic s = none ↔
      ¬ ∃ inner, s = "\x7b\x7b" ++ inner ++ "\x7d\x7d" ∧ inner ≠ "" ∧
        ∀ c ∈ inner.data, isLineTerminator c = false := by
  constructor
  · rintro h ⟨inner, hi⟩
    rw [(matchDynamic_iff s inner).mpr hi] at h
    cases h
  · intro h
    cases hm : matchDynamic s with
    | none => rfl
    | some inner => exact absurd ⟨inner, (matchDynamic_iff s inner).mp hm⟩ h

/-- C29. Exact extent of the dynamic-expression pattern: the pattern matches a string and
captures `inner` if and only if the string is `{{`, `inner`, `}}` with `inner` non-empty and
free of line terminators. A matching leaf or attribute value is emitted with the capture in
single braces, every other string verbatim; so `{{}}` and `{{...}}` around a text with a
newline are static text, and `{{a}}{{b}}` captures `a}}{{b`. -/
theorem matchDynamic_extent (stringify : JSValue → Option String) (s : String) :
    (∀ inner, matchDynamic s = some inner ↔
      s = "\x7b\x7b" ++ inner ++ "\x7d\x7d" ∧ inner ≠ "" ∧
        ∀ c ∈ inner.data, isLineTerminator c = false) ∧
    (∀ inner L, matchDynamic s = some inner →
      parseJSX stringify [.text s] L = jsxIndentation L ++ "\x7b" ++ inner ++ "\x7d\n" ∧
      ∀ key, parseProp stringify (key, .str s)
        = " " ++ propKey key ++ "=\x7b" ++ inner ++ "\x7d") ∧
    (∀ L, matchDynamic s = none →
      parseJSX stringify [.text s] L = jsxIndentation L ++ s ++ "\n" ∧
      ∀ key, parseProp stringify (key, .str s) = " " ++ propKey key ++ "=\"" ++ s ++ "\"") ∧
    (∀ inner : String, (∃ c ∈ inner.data, isLineTerminator c = true) →
      matchDynamic ("\x7b\x7b" ++ inner ++ "\x7d\x7d") = none) ∧
    matchDynamic "\x7b\x7b\x7d\x7d" = none ∧
    parseJSX stringify [.text "\x7b\x7b\x7d\x7d"] 0 = "\x7b\x7b\x7d\x7d\n" ∧
    parseJSX stringify [.text "\x7b\x7ba\nb\x7d\x7d"] 0 = "\x7b\x7ba\nb\x7d\x7d\n" ∧
    matchDynamic "\x7b\x7ba\x7d\x7d\x7b\x7bb\x7d\x7d" = some "a\x7d\x7d\x7b\x7bb" ∧
    matchDynamic "\x7b\x7ba\x7d\x7d " = none ∧
    matchDynamic " \x7b\x7ba\x7d\x7d" = none := by
  refine ⟨matchDynamic_iff s, ?_, ?_, ?_, rfl, rfl, rfl, rfl, rfl, rfl⟩
  · intro inner L hm
    refine ⟨?_, ?_⟩
    · rw [parseJSX_singleton]
      simp only [parseElement, hm]
    · intro key
      simp only [parseProp, hm]
  · intro L hm
    refine ⟨?_, ?_⟩
    · rw [parseJSX_singleton]
      simp only [parseElement, hm]
    · intro key
      simp only [parseProp, hm]
  · intro inner ⟨c, hc, hterm⟩
    rw [matchDynamic_none_iff]
    rintro ⟨inner', heq, _, hclean⟩
    have : inner = inner' := braces_cancel inner inner' heq
    subst this
    rw [hclean c hc] at hterm
    cases hterm

/-! ## Order of validation -/

/-- C25. Validation stops at the first failure in schema key order: when the keys before `k`
are processed without failure and processing `k` fails, that failure is the result, whatever
the later keys hold. Processing a key includes its nested schema: the failure of a nested
object, or of the first failing element of a nested array, is the failure of the key. With
the required strings `a` and `b` and the data `{}` the failure reported is the one for `a`. -/
theorem validateYAML_first_failure (schema data : JSValue) (before after : List String)
    (k : String) (e : JSError) (hkeys : objectKeys schema = .ok (before ++ k :: after))
    (hbefore : ∀ p ∈ before, validateKey validateYAML schema data p = .ok ())
    (hk : validateKey validateYAML schema data k = .error e) :
    validateYAML schema data = .error e ∧
    (∀ entry nested value, getProp schema k = .ok entry →
      getProp entry "type" = .ok (.str "object") → getProp entry "schema" = .ok nested →
      truthy nested = true → hasProperty k data = .ok true → getProp data k = .ok value →
      checkType value (.str "object") = .ok true → validateYAML nested value = .error e) ∧
    (∀ entry nested items, getProp schema k = .ok entry →
      getProp entry "type" = .ok (.str "array") → getProp entry "schema" = .ok nested →
      truthy nested = true → hasProperty k data = .ok true →
      getProp data k = .ok (.arr items) →
      ∀ valid item rest, items = valid ++ item :: rest →
        (∀ p ∈ valid, validateYAML nested p = .ok ()) →
        (∃ e', validateYAML nested item = .error e') → validateYAML nested item = .error e) ∧
    validateYAML
      (.obj [("a", .obj [("type", .str "string"), ("required", .bool true)]),
        ("b", .obj [("type", .str "string"), ("required", .bool true)])])
      (.obj []) = .error (.missingRequired "a") := by
  refine ⟨?_, ?_, ?_, rfl⟩
  · rw [validateYAML_unfold, hkeys]
    exact forEach_first_error _ k after e hk before hbefore
  · intro entry nested value h1 h2 h3 h4 h5 h6 h7
    rw [← validateKey_nested_object schema data entry nested value k h1 h2 h3 h4 h5 h6 h7]
    exact hk
  · intro entry nested items h1 h2 h3 h4 h5 h6 valid item rest hsplit hvalid ⟨e', he'⟩
    have hkey := validateKey_nested_array schema data entry nested items k h1 h2 h3 h4 h5 h6
    rw [hk, hsplit,
      forEach_first_error (fun item => validateYAML nested item) item rest e' he' valid hvalid]
      at hkey
    rw [he']
    exact hkey.symm

/-- An instance for C25: the key `a` passes, the key `b` is a number where a string is
declared, the key `c` is missing. -/
theorem validateYAML_first_failure_witness :
    (objectKeys (.obj [("a", .obj [("type", .str "string")]),
        ("b", .obj [("type", .str "string")]),
        ("c", .obj [("type", .str "string"), ("required", .bool true)])])
        = .ok (["a"] ++ "b" :: ["c"])) ∧
    validateYAML
      (.obj [("a", .obj [("type", .str "string")]), ("b", .obj [("type", .str "string")]),
        ("c", .obj [("type", .str "string"), ("required", .bool true)])])
      (.obj [("a", .str "x"), ("b", .num 1)])
      = .error (.typeMismatch "b" (.str "string") "number") :=
  ⟨rfl,
   (validateYAML_first_failure
      (.obj [("a", .obj [("type", .str "string")]), ("b", .obj [("type", .str "string")]),
        ("c", .obj [("type", .str "string"), ("required", .bool true)])])
      (.obj [("a", .str "x"), ("b", .num 1)]) ["a"] ["c"] "b"
      (.typeMismatch "b" (.str "string") "number") rfl
      (by intro p hp; simp only [List.mem_singleton] at hp; subst hp; rfl) rfl).1⟩

/-! ## Undeclared keys -/

theorem lookup_setField_ne (key k : String) (v : JSValue) (hne : key ≠ k) :
    ∀ fields : List (String × JSValue), (setField fields k v).lookup key = fields.lookup key := by
  intro fields
  induction fields with
  | nil =>
    have : (key == k) = false := by simpa using hne
    simp [setField, List.lookup, this]
  | cons kv rest ih =>
    obtain ⟨k', w⟩ := kv
    by_cases hk : k' = k
    · subst hk
      have : (key == k') = false := by simpa using hne
      simp [setField, List.lookup, this]
    · have hk2 : (k' == k) = false := by simpa using hk
      simp only [setField, hk2, Bool.false_eq_true, if_false, List.lookup, ih]

theorem lookup_setField_self (k : String) (v : JSValue) :
    ∀ fields : List (String × JSValue), (setField fields k v).lookup k = some v := by
  intro fields
  induction fields with
  | nil => simp [setField, List.lookup]
  | cons kv rest ih =>
    obtain ⟨k', w⟩ := kv
    by_cases hk : k' = k
    · subst hk
      simp [setField, List.lookup]
    · have hk2 : (k' == k) = false := by simpa using hk
      have hk3 : (k == k') = false := by simpa using (Ne.symm hk)
      simp only [setField, hk2, Bool.false_eq_true, if_false, List.lookup, hk3, ih]

theorem validateKey_data_congr (recur : JSValue → JSValue → Except JSError Unit)
    (schema d d' : JSValue) (key : String) (hin : hasProperty key d = hasProperty key d')
    (hget : getProp d key = getProp d' key) :
    validateKey recur schema d key = validateKey recur schema d' key := by
  simp only [validateKey, checkRequired, checkPresent, validateNested, hin, hget]

theorem forEach_set {f : JSValue → Except JSError Unit} {item item' : JSValue}
    (hf : f item = f item') :
    ∀ (items : List JSValue) (i : Nat), items[i]? = some item →
      forEach (items.set i item') f = forEach items f := by
  intro items
  induction items with
  | nil => intro i h; simp at h
  | cons x rest ih =>
    intro i h
    cases i with
    | zero =>
      simp at h
      subst h
      simp only [List.set, forEach, hf]
    | succ j =>
      simp at h
      simp only [List.set, forEach, ih j h]

theorem checkPresent_ok_shape (expectedType : JSValue) (key : String) (data value : JSValue)
    (hpresent : hasProperty key data = .ok true) (hvalue : getProp data key = .ok value)
    (h : checkPresent expectedType key data = .ok ()) :
    checkType value expectedType = .ok true := by
  simp only [checkPresent, hpresent, hvalue, bind, Except.bind] at h
  cases hc : checkType value expectedType with
  | error e => simp [hc] at h
  | ok b =>
    cases b with
    | true => rfl
    | false => simp [hc, throw, throwThe, MonadExceptOf.throw] at h

theorem validateKey_value_congr (recur : JSValue → JSValue → Except JSError Unit)
    (schema d d' v v' : JSValue) (key : String)
    (hin : hasProperty key d = .ok true) (hin' : hasProperty key d' = .ok true)
    (hget : getProp d key = .ok v) (hget' : getProp d' key = .ok v')
    (hshape : ∀ t, checkType v t = checkType v' t) (htypeof : typeof v = typeof v')
    (hnest : ∀ entry nested et, getProp schema key = .ok entry →
      getProp entry "schema" = .ok nested → checkType v et = .ok true →
      validateNested recur nested et key d = validateNested recur nested et key d') :
    validateKey recur schema d key = validateKey recur schema d' key := by
  unfold validateKey
  cases h1 : getProp schema key with
  | error e => rfl
  | ok entry =>
    simp only [bind, Except.bind]
    cases h2 : getProp entry "type" with
    | error e => rfl
    | ok et =>
      cases h3 : getProp entry "required" with
      | error e => rfl
      | ok r =>
        have hp : checkPresent et key d' = checkPresent et key d := by
          simp only [checkPresent, hin, hin', hget, hget', bind, Except.bind, hshape, htypeof]
        simp only [checkRequired_present r key d hin, checkRequired_present r key d' hin', hp]
        cases h4 : checkPresent et key d with
        | error e => rfl
        | ok u =>
          have hs := checkPresent_ok_shape et key d v hin hget h4
          cases h5 : getProp entry "schema" with
          | error e => rfl
          | ok nested => exact hnest entry nested et h1 h5 hs

theorem assignField_of_ne (fields : List (String × JSValue)) (k : String) (v : JSValue)
    (h : k ≠ "__proto__") : assignField fields k v = .obj (setField fields k v) := by
  have hb : (k == "__proto__") = false := by simpa using h
  simp [assignField, hb]

theorem assignField_of_own {fields : List (String × JSValue)} {k : String} {w : JSValue}
    (v : JSValue) (h : fields.lookup k = some w) :
    assignField fields k v = .obj (setField fields k v) := by
  simp [assignField, h]

theorem hasProperty_setField_ne (key k : String) (v : JSValue) (hne : key ≠ k)
    (fields : List (String × JSValue)) :
    hasProperty key (.obj (setField fields k v)) = hasProperty key (.obj fields) := by
  simp only [hasProperty, findSlot, lookup_setField_ne key k v hne]

theorem getProp_setField_ne (key k : String) (v : JSValue) (hne : key ≠ k)
    (fields : List (String × JSValue)) :
    getProp (.obj (setField fields k v)) key = getProp (.obj fields) key := by
  simp only [getProp, findSlot, protoOf, lookup_setField_ne key k v hne]

theorem Widened.validate {schema data data' : JSValue} (h : Widened schema data data') :
    validateYAML schema data = validateYAML schema data' := by
  induction h with
  | same schema data => rfl
  | undeclared schema fields k v hproto hk =>
    rw [assignField_of_ne fields k v hproto, validateYAML_unfold, validateYAML_unfold]
    cases hkeys : objectKeys schema with
    | error e => rfl
    | ok keys =>
      simp only [bind, Except.bind]
      apply forEach_congr
      intro key hmem
      have hne : key ≠ k := by
        rintro rfl
        exact hk keys hkeys hmem
      apply validateKey_data_congr
      · rw [hasProperty_setField_ne key k v hne]
      · rw [getProp_setField_ne key k v hne]
  | nestedObject schema fields key entry nested inner inner' h1 h2 h3 _ ih =>
    rw [assignField_of_own _ h3, validateYAML_unfold, validateYAML_unfold]
    cases hkeys : objectKeys schema with
    | error e => rfl
    | ok keys =>
      simp only [bind, Except.bind]
      apply forEach_congr
      intro key' _
      by_cases hne : key' = key
      · subst hne
        have hg : getProp (.obj fields) key' = .ok (.obj inner) := getProp_obj_own h3
        have hg' : getProp (.obj (setField fields key' (.obj inner'))) key' = .ok (.obj inner') :=
          getProp_obj_own (lookup_setField_self key' _ fields)
        apply validateKey_value_congr validateYAML schema _ _ (.obj inner) (.obj inner') key'
          (hasProperty_obj_own h3) (hasProperty_obj_own (lookup_setField_self key' _ fields))
          hg hg'
        · intro t; rfl
        · rfl
        · intro entry2 nested2 et he hn hs
          have hentry : entry2 = entry := by
            rw [h1] at he; injection he with he; exact he.symm
          subst hentry
          have hnested : nested2 = nested := by
            rw [h2] at hn; injection hn with hn; exact hn.symm
          subst hnested
          simp only [validateNested, hg, hg', bind, Except.bind, forEachItem, ih]
      · apply validateKey_data_congr
        · rw [hasProperty_setField_ne key' key _ hne]
        · rw [getProp_setField_ne key' key _ hne]
  | nestedElement schema fields key entry nested items i item item' h1 h2 h3 h4 _ ih =>
    rw [assignField_of_own _ h3, validateYAML_unfold, validateYAML_unfold]
    cases hkeys : objectKeys schema with
    | error e => rfl
    | ok keys =>
      simp only [bind, Except.bind]
      apply forEach_congr
      intro key' _
      by_cases hne : key' = key
      · subst hne
        have hg : getProp (.obj fields) key' = .ok (.arr items) := getProp_obj_own h3
        have hg' : getProp (.obj (setField fields key' (.arr (items.set i item')))) key'
            = .ok (.arr (items.set i item')) :=
          getProp_obj_own (lookup_setField_self key' _ fields)
        apply validateKey_value_congr validateYAML schema _ _ (.arr items)
          (.arr (items.set i item')) key'
          (hasProperty_obj_own h3) (hasProperty_obj_own (lookup_setField_self key' _ fields))
          hg hg'
        · intro t; rfl
        · rfl
        · intro entry2 nested2 et he hn hs
          have hentry : entry2 = entry := by
            rw [h1] at he; injection he with he; exact he.symm
          subst hentry
          have hnested : nested2 = nested := by
            rw [h2] at hn; injection hn with hn; exact hn.symm
          subst hnested
          by_cases hobj : strictEqStr et "object" = true
          · have het : et = .str "object" := by
              cases et <;> simp [strictEqStr] at hobj
              subst hobj; rfl
            subst het
            have : checkType (.arr items) (.str "object") = .ok false := rfl
            rw [this] at hs
            cases hs
          · have hobj2 : strictEqStr et "object" = false := by simpa using hobj
            have hset : forEach (items.set i item') (fun item => validateYAML nested2 item)
                = forEach items (fun item => validateYAML nested2 item) :=
              forEach_set (f := fun item => validateYAML nested2 item) ih items i h4
            simp only [validateNested, hg, hg', bind, Except.bind, forEachItem, hobj2, hset,
              Bool.false_eq_true, if_false]
      · apply validateKey_data_congr
        · rw [hasProperty_setField_ne key' key _ hne]
        · rw [getProp_setField_ne key' key _ hne]
  | trans schema a b c _ _ ih1 ih2 => rw [ih1, ih2]

/-- C30 (counterexample). The schema requires `name` and does not declare `__proto__`. The
data `{}` fails with the missing-required-field error, but after the assignment
`data['__proto__'] = {name: 'x'}` the mapping inherits `name`, `'name' in data` is true, and
validation succeeds. -/
theorem validateYAML_proto_assignment_changes_outcome :
    (∀ keys, objectKeys (.obj [("name", .obj [("type", .str "string"), ("required", .bool true)])])
      = .ok keys → "__proto__" ∉ keys) ∧
    validateYAML (.obj [("name", .obj [("type", .str "string"), ("required", .bool true)])])
      (.obj []) = .error (.missingRequired "name") ∧
    validateYAML (.obj [("name", .obj [("type", .str "string"), ("required", .bool true)])])
      (assignField [] "__proto__" (.obj [("name", .str "x")])) = .ok () :=
  ⟨by intro keys h; injection h with h; subst h; decide, rfl, rfl⟩

/-- C30 (amended). The validator ignores undeclared keys other than `__proto__`: assigning any
value to a key `k` that the schema does not declare and that is not `__proto__` leaves the
outcome of `validateYAML` unchanged, be it success or a failure; the same holds when the
assignment is made inside a nested object or inside an element of a nested array whose nested
schema does not declare the key, and for any number of such changes at any depth. Such an
assignment writes the own property `k` of the mapping. -/
theorem validateYAML_ignores_undeclared (schema : JSValue) (fields : List (String × JSValue))
    (k : String) (v : JSValue) (hk : ∀ keys, objectKeys schema = .ok keys → k ∉ keys)
    (hproto : k ≠ "__proto__") :
    validateYAML schema (assignField fields k v) = validateYAML schema (.obj fields) ∧
    (∀ outer outerFields key entry, getProp outer key = .ok entry →
      getProp entry "schema" = .ok schema → outerFields.lookup key = some (.obj fields) →
      validateYAML outer (assignField outerFields key (assignField fields k v))
        = validateYAML outer (.obj outerFields)) ∧
    (∀ outer outerFields key entry items i, getProp outer key = .ok entry →
      getProp entry "schema" = .ok schema → outerFields.lookup key = some (.arr items) →
      items[i]? = some (.obj fields) →
      validateYAML outer
          (assignField outerFields key (.arr (items.set i (assignField fields k v))))
        = validateYAML outer (.obj outerFields)) ∧
    (∀ outer data data', Widened outer data data' →
      validateYAML outer data' = validateYAML outer data) ∧
    assignField fields k v = .obj (setField fields k v) := by
  have hw : Widened schema (.obj fields) (assignField fields k v) :=
    Widened.undeclared schema fields k v hproto hk
  have heq : assignField fields k v = .obj (setField fields k v) :=
    assignField_of_ne fields k v hproto
  refine ⟨hw.validate.symm, ?_, ?_, ?_, heq⟩
  · intro outer outerFields key entry h1 h2 h3
    rw [heq] at hw ⊢
    exact (Widened.nestedObject outer outerFields key entry schema fields _ h1 h2 h3
      hw).validate.symm
  · intro outer outerFields key entry items i h1 h2 h3 h4
    exact (Widened.nestedElement outer outerFields key entry schema items i _ _ h1 h2 h3 h4
      hw).validate.symm
  · intro outer data data' h
    exact h.validate.symm

/-- An instance for C30 as amended: the undeclared key `note` is added to data in which the
required `name` is missing, and the failure stays the same. -/
theorem validateYAML_ignores_undeclared_witness :
    ((∀ keys, objectKeys (.obj [("name", .obj [("type", .str "string"), ("required", .bool true)])])
      = .ok keys → "note" ∉ keys) ∧ "note" ≠ "__proto__") ∧
    validateYAML (.obj [("name", .obj [("type", .str "string"), ("required", .bool true)])])
      (assignField [("id", .num 1)] "note" (.str "x"))
      = validateYAML (.obj [("name", .obj [("type", .str "string"), ("required", .bool true)])])
        (.obj [("id", .num 1)]) ∧
    assignField [("id", .num 1)] "note" (.str "x") = .obj [("id", .num 1), ("note", .str "x")] ∧
    validateYAML (.obj [("name", .obj [("type", .str "string"), ("required", .bool true)])])
      (.obj [("id", .num 1), ("note", .str "x")]) = .error (.missingRequired "name") :=
  ⟨⟨by intro keys h; injection h with h; subst h; decide, by decide⟩,
   (validateYAML_ignores_undeclared
      (.obj [("name", .obj [("type", .str "string"), ("required", .bool true)])])
      [("id", .num 1)] "note" (.str "x")
      (by intro keys h; injection h with h; subst h; decide) (by decide)).1,
   rfl, rfl⟩

end YamlSkript
